import Mathlib

/-!
# Verification of the SecOps triage / extraction core

Shallow embedding of the deterministic core of the `soc-lite-aws` agents:

* `triage_decision` (secops_agent.py, lines 251-283),
* `parse_json_response` (secops_agent.py, lines 574-596),
* `extract_json_from_response` (bulk_analysis_agent.py, lines 17-57),
* `handle_analyze_workflow` (secops_agent.py, lines 329-428),
* `handle_monitor_workflow` (secops_agent.py, lines 431-571).

Text is modelled as `List Char`; Python/JSON values as the inductive `Json`
(the fragment produced and consumed by the program: null, booleans, integers,
strings, arrays, objects; floating point literals are outside the modelled
fragment).  Arrays and objects carry their own spine types `JsonA`/`JsonO`
(mutually inductive with `Json`) so that all functions on `Json` are plain
structural recursions; `List`-valued views are provided for convenience.
Operations that can raise in Python are embedded in `Except (List Char) _`,
the error carrying the exception message; the `try/except` blocks of the
source become explicit `match`es on that result.  External collaborators (the
text-generation model and the backend HTTP API) are parameters: the model's
reply text and the per-call backend outcomes are supplied by an `Env`, and
the side-effecting backend calls the orchestration issues are collected in an
explicit trace of `Call`s.
-/

mutual
/-- JSON/Python values (the fragment handled by the program). -/
inductive Json where
  | null : Json
  | bool : Bool → Json
  | int : Int → Json
  | str : List Char → Json
  | arr : JsonA → Json
  | obj : JsonO → Json

/-- Spine of a JSON array. -/
inductive JsonA where
  | nil : JsonA
  | cons : Json → JsonA → JsonA

/-- Spine of a JSON object: an ordered list of key/value bindings. -/
inductive JsonO where
  | nil : JsonO
  | cons : List Char → Json → JsonO → JsonO
end

/-- Build an array spine from a list of elements. -/
def JsonA.ofList : List Json → JsonA
  | [] => .nil
  | x :: xs => .cons x (JsonA.ofList xs)

/-- The elements of an array spine. -/
def JsonA.toList : JsonA → List Json
  | .nil => []
  | .cons x xs => x :: JsonA.toList xs

/-- Build an object spine from a list of bindings. -/
def JsonO.ofList : List (List Char × Json) → JsonO
  | [] => .nil
  | (k, v) :: kvs => .cons k v (JsonO.ofList kvs)

/-- The bindings of an object spine. -/
def JsonO.toList : JsonO → List (List Char × Json)
  | .nil => []
  | .cons k v kvs => (k, v) :: JsonO.toList kvs

/-- JSON array literal from a list. -/
def Json.mkArr (xs : List Json) : Json := .arr (JsonA.ofList xs)

/-- JSON object literal from a binding list. -/
def Json.mkObj (kvs : List (List Char × Json)) : Json := .obj (JsonO.ofList kvs)

/-- Number of elements of an array spine. -/
def JsonA.length : JsonA → Nat
  | .nil => 0
  | .cons _ xs => 1 + JsonA.length xs

/-- Number of bindings of an object spine. -/
def JsonO.length : JsonO → Nat
  | .nil => 0
  | .cons _ _ kvs => 1 + JsonO.length kvs

/-- Association lookup of a key in an object. -/
def jsonLookup : JsonO → List Char → Option Json
  | .nil, _ => none
  | .cons k v rest, key => if k = key then some v else jsonLookup rest key

/-- Python `dict` insertion: replace the value of an existing key in place,
otherwise append the binding at the end. -/
def insertKV : JsonO → List Char → Json → JsonO
  | .nil, key, v => .cons key v .nil
  | .cons k w rest, key, v =>
    if k = key then .cons k v rest else .cons k w (insertKV rest key v)

/-- Field access on a `Json` value (used only to state theorems). -/
def Json.getKey? : Json → List Char → Option Json
  | .obj kvs, key => jsonLookup kvs key
  | _, _ => none

/-- Python truthiness (`bool(x)` is `False` exactly for `None`, `False`, `0`,
and empty string/list/dict). -/
def pyFalsy : Json → Bool
  | .null => true
  | .bool b => !b
  | .int n => n == 0
  | .str s => s.isEmpty
  | .arr .nil => true
  | .arr _ => false
  | .obj .nil => true
  | .obj _ => false

/-- Does `sep` occur as a contiguous substring of `t`?  (Python `sep in t` on
strings, and the occurrence test underlying `str.split`.) -/
def containsSub (sep : List Char) : List Char → Bool
  | [] => sep.isEmpty
  | c :: rest => sep.isPrefixOf (c :: rest) || containsSub sep rest

/-- Python `==` between a `Json` value and a string: strings compare by
content, a string never equals a value of another type. -/
def beqStr : Json → List Char → Bool
  | .str s, key => s == key
  | _, _ => false

/-- Does some element of an array equal the given string (Python
`key in list`)? -/
def JsonA.anyStrEq : JsonA → List Char → Bool
  | .nil, _ => false
  | .cons x xs, key => beqStr x key || JsonA.anyStrEq xs key

/-- Python `key in x` for a string `key`: dicts test key membership, lists test
element membership, strings test substring containment; other values raise
`TypeError`. -/
def pyIn (key : List Char) : Json → Except (List Char) Bool
  | .obj kvs => .ok ((jsonLookup kvs key).isSome)
  | .arr xs => .ok (xs.anyStrEq key)
  | .str s => .ok (containsSub key s)
  | _ => .error ("TypeError: argument is not iterable").toList

/-- Python `x[key]` for a string `key`: dict lookup (`KeyError` if absent);
lists and strings require integer indices (`TypeError`); other values raise
`TypeError`. -/
def pyGetItem : Json → List Char → Except (List Char) Json
  | .obj kvs, key =>
    match jsonLookup kvs key with
    | some v => .ok v
    | none => .error ("KeyError").toList
  | .str _, _ => .error ("TypeError: string indices must be integers").toList
  | .arr _, _ => .error ("TypeError: list indices must be integers").toList
  | _, _ => .error ("TypeError: object is not subscriptable").toList

/-- Python `x[i]` for a nonnegative integer index (only `0` is used by the
program): list/string indexing with `IndexError` when out of range. -/
def pyIndexNat : Json → Nat → Except (List Char) Json
  | .arr xs, i =>
    match (JsonA.toList xs).get? i with
    | some v => .ok v
    | none => .error ("IndexError: list index out of range").toList
  | .str s, i =>
    match s.get? i with
    | some c => .ok (.str [c])
    | none => .error ("IndexError: string index out of range").toList
  | .obj _, _ => .error ("KeyError").toList
  | _, _ => .error ("TypeError: object is not subscriptable").toList

/-- Python `x.get(key, default)`: only dicts have `.get`; everything else
raises `AttributeError`. -/
def pyGetD (x : Json) (key : List Char) (dflt : Json) : Except (List Char) Json :=
  match x with
  | .obj kvs =>
    match jsonLookup kvs key with
    | some v => .ok v
    | none => .ok dflt
  | _ => .error ("AttributeError: object has no attribute get").toList

/-- Python `len(x)`: lists, strings and dicts are sized; other values raise
`TypeError`. -/
def pyLen : Json → Except (List Char) Nat
  | .arr xs => .ok xs.length
  | .str s => .ok s.length
  | .obj kvs => .ok kvs.length
  | _ => .error ("TypeError: object has no len").toList

/-- Python iteration `for x in v`: lists yield elements, dicts yield keys,
strings yield one-character strings; other values raise `TypeError`. -/
def pyIter : Json → Except (List Char) (List Json)
  | .arr xs => .ok xs.toList
  | .obj kvs => .ok ((JsonO.toList kvs).map (fun kv => Json.str kv.1))
  | .str s => .ok (s.map (fun c => Json.str [c]))
  | _ => .error ("TypeError: object is not iterable").toList

/-- Python `isinstance(x, int)` (booleans are a subtype of `int`). -/
def isIntLike : Json → Bool
  | .int _ => true
  | .bool _ => true
  | _ => false

/-- Numeric value of an int-like `Json` (Python treats `True`/`False` as
`1`/`0` in arithmetic and comparisons); anything else raises `TypeError` as a
Python `<=`/`==` comparison with an `int` would. -/
def asIntE : Json → Except (List Char) Int
  | .int n => .ok n
  | .bool b => .ok (if b then 1 else 0)
  | _ => .error ("TypeError: comparison not supported between instances").toList

mutual
/-- Python `repr` on the modelled fragment (list/dict rendering uses `repr`
for nested values; strings are quoted with single quotes). -/
def Json.repr : Json → List Char
  | .null => ("None").toList
  | .bool b => if b then ("True").toList else ("False").toList
  | .int n => (toString n).toList
  | .str s => [Char.ofNat 39] ++ s ++ [Char.ofNat 39]
  | .arr xs => [Char.ofNat 91] ++ JsonA.reprElems xs ++ [Char.ofNat 93]
  | .obj kvs => [Char.ofNat 123] ++ JsonO.reprBindings kvs ++ [Char.ofNat 125]

/-- `repr` of the comma-separated elements of an array. -/
def JsonA.reprElems : JsonA → List Char
  | .nil => []
  | .cons x .nil => Json.repr x
  | .cons x xs => Json.repr x ++ (", ").toList ++ JsonA.reprElems xs

/-- `repr` of the comma-separated bindings of a dict. -/
def JsonO.reprBindings : JsonO → List Char
  | .nil => []
  | .cons k v .nil =>
    [Char.ofNat 39] ++ k ++ [Char.ofNat 39] ++ (": ").toList ++ Json.repr v
  | .cons k v kvs =>
    [Char.ofNat 39] ++ k ++ [Char.ofNat 39] ++ (": ").toList ++ Json.repr v ++
      (", ").toList ++ JsonO.reprBindings kvs
end

/-- Python `str(x)` on the modelled fragment: identity on strings, `repr`-like
rendering otherwise. -/
def pyStr : Json → List Char
  | .str s => s
  | v => Json.repr v

/-- JSON whitespace. -/
def isWsChar (c : Char) : Bool := c = ' ' || c = '\n' || c = '\t' || c = '\r'

/-- Drop leading JSON whitespace. -/
def skipWs : List Char → List Char
  | [] => []
  | c :: rest => if isWsChar c then skipWs rest else c :: rest

/-- Value of a hexadecimal digit. -/
def hexVal (c : Char) : Option Nat :=
  if '0' ≤ c ∧ c ≤ '9' then some (c.toNat - 48)
  else if 'a' ≤ c ∧ c ≤ 'f' then some (c.toNat - 87)
  else if 'A' ≤ c ∧ c ≤ 'F' then some (c.toNat - 70)
  else none

/-- Single-character JSON string escapes. -/
def escCharVal (e : Char) : Option Char :=
  if e = Char.ofNat 34 then some (Char.ofNat 34)
  else if e = Char.ofNat 92 then some (Char.ofNat 92)
  else if e = '/' then some '/'
  else if e = 'b' then some (Char.ofNat 8)
  else if e = 'f' then some (Char.ofNat 12)
  else if e = 'n' then some '\n'
  else if e = 'r' then some (Char.ofNat 13)
  else if e = 't' then some (Char.ofNat 9)
  else none

/-- Parse the body of a JSON string literal (after the opening quote) up to and
including the closing quote, decoding escapes.  Returns the decoded characters
and the rest of the input. -/
def parseStrBody : List Char → Option (List Char × List Char)
  | [] => none
  | c :: rest =>
    if c = Char.ofNat 34 then some ([], rest)
    else if c = Char.ofNat 92 then
      match rest with
      | [] => none
      | e :: rest2 =>
        if e = 'u' then
          match rest2 with
          | h1 :: h2 :: h3 :: h4 :: rest3 =>
            match hexVal h1, hexVal h2, hexVal h3, hexVal h4 with
            | some a, some b, some x, some y =>
              match parseStrBody rest3 with
              | some (s, r) => some (Char.ofNat (((a * 16 + b) * 16 + x) * 16 + y) :: s, r)
              | none => none
            | _, _, _, _ => none
          | _ => none
        else
          match escCharVal e with
          | some ec =>
            match parseStrBody rest2 with
            | some (s, r) => some (ec :: s, r)
            | none => none
          | none => none
    else
      match parseStrBody rest with
      | some (s, r) => some (c :: s, r)
      | none => none

/-- Numeric value of a list of decimal digits (most significant first). -/
def digitsToNat (acc : Nat) : List Char → Nat
  | [] => acc
  | d :: ds => digitsToNat (acc * 10 + (d.toNat - 48)) ds

/-- Parse a maximal nonempty run of decimal digits. -/
def parseNat (t : List Char) : Option (Nat × List Char) :=
  match t.takeWhile (fun c => c.isDigit) with
  | [] => none
  | ds => some (digitsToNat 0 ds, t.dropWhile (fun c => c.isDigit))

mutual
/-- Recursive-descent parser for the modelled JSON fragment (objects, arrays,
strings, integers, `true`/`false`/`null`), fuelled so that it is structurally
recursive.  Mirrors Python's `json.loads` grammar on this fragment. -/
def parseVal : Nat → List Char → Option (Json × List Char)
  | 0, _ => none
  | fuel + 1, t =>
    match skipWs t with
    | [] => none
    | c :: rest =>
      if c = '{' then
        match skipWs rest with
        | '}' :: r2 => some (Json.obj .nil, r2)
        | r2 => parseMembers fuel r2 .nil
      else if c = '[' then
        match skipWs rest with
        | ']' :: r2 => some (Json.arr .nil, r2)
        | r2 => parseElems fuel r2 .nil
      else if c = Char.ofNat 34 then
        match parseStrBody rest with
        | some (s, r) => some (Json.str s, r)
        | none => none
      else if c = 't' then
        match rest with
        | 'r' :: 'u' :: 'e' :: r => some (Json.bool true, r)
        | _ => none
      else if c = 'f' then
        match rest with
        | 'a' :: 'l' :: 's' :: 'e' :: r => some (Json.bool false, r)
        | _ => none
      else if c = 'n' then
        match rest with
        | 'u' :: 'l' :: 'l' :: r => some (Json.null, r)
        | _ => none
      else if c = '-' then
        match parseNat rest with
        | some (n, r) => some (Json.int (-(n : Int)), r)
        | none => none
      else if c.isDigit then
        match parseNat (c :: rest) with
        | some (n, r) => some (Json.int (n : Int), r)
        | none => none
      else none

/-- Parse the members of a JSON object (after the opening brace, first key
expected next); duplicate keys follow Python `dict` semantics (last value
wins, original position kept). -/
def parseMembers : Nat → List Char → JsonO → Option (Json × List Char)
  | 0, _, _ => none
  | fuel + 1, t, acc =>
    match skipWs t with
    | c :: rest =>
      if c = Char.ofNat 34 then
        match parseStrBody rest with
        | some (k, r1) =>
          match skipWs r1 with
          | ':' :: r2 =>
            match parseVal fuel r2 with
            | some (v, r3) =>
              match skipWs r3 with
              | ',' :: r4 => parseMembers fuel r4 (insertKV acc k v)
              | '}' :: r4 => some (Json.obj (insertKV acc k v), r4)
              | _ => none
            | none => none
          | _ => none
        | none => none
      else none
    | [] => none

/-- Parse the elements of a JSON array (after the opening bracket, first
element expected next). -/
def parseElems : Nat → List Char → List Json → Option (Json × List Char)
  | 0, _, _ => none
  | fuel + 1, t, acc =>
    match parseVal fuel t with
    | some (v, r1) =>
      match skipWs r1 with
      | ',' :: r2 => parseElems fuel r2 (acc ++ [v])
      | ']' :: r2 => some (Json.mkArr (acc ++ [v]), r2)
      | _ => none
    | none => none
end

/-- Python `json.loads`: parse one JSON document, requiring only whitespace
after it; raises (`.error`) on any parse failure. -/
def pyLoads (t : List Char) : Except (List Char) Json :=
  match parseVal (t.length + 1) t with
  | some (v, r) =>
    if skipWs r = [] then .ok v
    else .error ("json.decoder.JSONDecodeError: Extra data").toList
  | none => .error ("json.decoder.JSONDecodeError: Expecting value").toList

/-- Python whitespace for `str.strip`. -/
def pyStrip (t : List Char) : List Char :=
  ((t.dropWhile isWsChar).reverse.dropWhile isWsChar).reverse

/-- Find the first occurrence of (nonempty) `sep` in `t`: returns the part
before it and the part after it. -/
def firstSplitAux (sep : List Char) : List Char → Option (List Char × List Char)
  | [] => none
  | c :: rest =>
    if sep.isPrefixOf (c :: rest) then some ([], (c :: rest).drop sep.length)
    else
      match firstSplitAux sep rest with
      | some (pre, post) => some (c :: pre, post)
      | none => none

/-- Fuelled worker for Python `str.split(sep)`. -/
def pySplitAux (sep : List Char) : Nat → List Char → List (List Char)
  | 0, t => [t]
  | fuel + 1, t =>
    match firstSplitAux sep t with
    | none => [t]
    | some (pre, post) => pre :: pySplitAux sep fuel post

/-- Python `t.split(sep)` for a nonempty separator. -/
def pySplitL (sep t : List Char) : List (List Char) := pySplitAux sep (t.length + 1) t

/-- Python list indexing on a list of strings (`IndexError` out of range). -/
def pyIdxL (xs : List (List Char)) (i : Nat) : Except (List Char) (List Char) :=
  match xs.get? i with
  | some x => .ok x
  | none => .error ("IndexError: list index out of range").toList

/-- The Python regex search `\x7b[\s\S]*\x7d` (greedy): the segment from the
first opening brace through the last closing brace, when the latter occurs
after the former. -/
def braceExtract (t : List Char) : Option (List Char) :=
  let a := t.dropWhile (fun c => c ≠ '{')
  let b := (a.reverse.dropWhile (fun c => c ≠ '}')).reverse
  if b.isEmpty then none else some b

/-- The fenced-code-block marker (three backticks). -/
def fenceSep : List Char := ("```").toList

/-- The JSON-tagged fenced-code-block marker. -/
def fenceJsonSep : List Char := ("```json").toList

/-- `json.loads` applied to a Python value: requires a string argument. -/
def pyLoadsOf : Json → Except (List Char) Json
  | .str s => pyLoads s
  | _ => .error ("TypeError: the JSON object must be str").toList

/-- Python `x.split`: only strings have `.split`. -/
def asStrSplit : Json → Except (List Char) (List Char)
  | .str s => .ok s
  | _ => .error ("AttributeError: object has no attribute split").toList

/-- Fence-removal step of `parse_json_response` (secops_agent.py,
lines 580-584): strip the input, then cut out the contents of a markdown code
fence when one is present (a fence tagged `json` preferred). -/
def parse_json_response_defence (response_text : List Char) : Except (List Char) (List Char) :=
  let text := pyStrip response_text
  if containsSub fenceJsonSep text then
    match pyIdxL (pySplitL fenceJsonSep text) 1 with
    | .error e => .error e
    | .ok p1 =>
      match pyIdxL (pySplitL fenceSep p1) 0 with
      | .error e => .error e
      | .ok p0 => .ok (pyStrip p0)
  else if containsSub fenceSep text then
    match pyIdxL (pySplitL fenceSep text) 1 with
    | .error e => .error e
    | .ok p1 =>
      match pyIdxL (pySplitL fenceSep p1) 0 with
      | .error e => .error e
      | .ok p0 => .ok (pyStrip p0)
  else .ok text

/-- Raisable part of `parse_json_response` (secops_agent.py, lines 578-592):
strip, remove markdown code fences if present, then greedily locate a JSON
object (regex `\x7b[\s\S]*\x7d`) and parse it. -/
def parse_json_response_body (response_text : List Char) : Except (List Char) Json :=
  match parse_json_response_defence response_text with
  | .error e => .error e
  | .ok text =>
    match braceExtract text with
    | some grp => pyLoads grp
    | none => pyLoads text

/-- `parse_json_response` (secops_agent.py, lines 574-596): any exception is
caught and the empty dict is returned. -/
def parse_json_response (response_text : List Char) : Json :=
  match parse_json_response_body response_text with
  | .ok j => j
  | .error _ => Json.mkObj []

/-- Key names used by the extraction routines. -/
def sevKey : List Char := ("severity_rating").toList

/-- The analysis-narrative key. -/
def secAnKey : List Char := ("security_analysis").toList

/-- The recommended-actions key. -/
def recActKey : List Char := ("recommended_actions").toList

/-- The error tag key of an extraction error object. -/
def errKey : List Char := ("error").toList

/-- The truncated-payload key of an extraction error object. -/
def rawKey : List Char := ("raw_response").toList

/-- An extraction error object `{"error": msg, "raw_response": raw[:200]}`. -/
def extractErr (msg raw : List Char) : Json :=
  Json.mkObj [(errKey, .str msg), (rawKey, .str (raw.take 200))]

/-- Message-unwrapping step of `extract_json_from_response`
(bulk_analysis_agent.py, lines 28-32): take `result_message['content'][0]
['text']` when the message is a dict with a `content` key, otherwise
`str(result_message)`. -/
def extractUnwrap (result_message : Json) : Except (List Char) Json :=
  match result_message with
  | .obj kvs =>
    if (jsonLookup kvs (("content").toList)).isSome then
      match pyGetItem result_message (("content").toList) with
      | .error e => .error e
      | .ok c =>
        match pyIndexNat c 0 with
        | .error e => .error e
        | .ok c0 => pyGetItem c0 (("text").toList)
    else .ok (Json.str (pyStr result_message))
  | _ => .ok (Json.str (pyStr result_message))

/-- Fence-removal step of `extract_json_from_response`
(bulk_analysis_agent.py, lines 34-38): the unwrapped text is not stripped
first, and may be a non-string (its `.split` then raises). -/
def extractDefence (text : Json) : Except (List Char) Json :=
  match pyIn fenceJsonSep text with
  | .error e => .error e
  | .ok true =>
    match asStrSplit text with
    | .error e => .error e
    | .ok s =>
      match pyIdxL (pySplitL fenceJsonSep s) 1 with
      | .error e => .error e
      | .ok p1 =>
        match pyIdxL (pySplitL fenceSep p1) 0 with
        | .error e => .error e
        | .ok p0 => .ok (Json.str (pyStrip p0))
  | .ok false =>
    match pyIn fenceSep text with
    | .error e => .error e
    | .ok true =>
      match asStrSplit text with
      | .error e => .error e
      | .ok s =>
        match pyIdxL (pySplitL fenceSep s) 1 with
        | .error e => .error e
        | .ok p1 =>
          match pyIdxL (pySplitL fenceSep p1) 0 with
          | .error e => .error e
          | .ok p0 => .ok (Json.str (pyStrip p0))
    | .ok false => .ok text

/-- Unwrap, de-fence and parse (bulk_analysis_agent.py, lines 28-41); on
success returns the de-fenced text (for error payloads) together with the
parsed value. -/
def extractParseStage (result_message : Json) : Except (List Char) (List Char × Json) :=
  match extractUnwrap result_message with
  | .error e => .error e
  | .ok text0 =>
    match extractDefence text0 with
    | .error e => .error e
    | .ok text =>
      match pyLoadsOf text with
      | .error e => .error e
      | .ok analysis =>
        .ok ((match text with | .str s => s | _ => []), analysis)

/-- Validation step of `extract_json_from_response` (bulk_analysis_agent.py,
lines 43-54): required fields (`rating_reason` deliberately not among them),
then the integer-range check on the severity.  Validation failures are
normal returns of a tagged error dict, not exceptions. -/
def extractValidate (raw : List Char) (analysis : Json) : Except (List Char) Json :=
  match pyIn sevKey analysis with
  | .error e => .error e
  | .ok false => .ok (extractErr (("Missing required field: ").toList ++ sevKey) raw)
  | .ok true =>
  match pyIn secAnKey analysis with
  | .error e => .error e
  | .ok false => .ok (extractErr (("Missing required field: ").toList ++ secAnKey) raw)
  | .ok true =>
  match pyIn recActKey analysis with
  | .error e => .error e
  | .ok false => .ok (extractErr (("Missing required field: ").toList ++ recActKey) raw)
  | .ok true =>
  match pyGetItem analysis sevKey with
  | .error e => .error e
  | .ok severity =>
    if !(isIntLike severity) then
      .ok (extractErr (("Invalid severity rating: ").toList ++ pyStr severity) raw)
    else
      match asIntE severity with
      | .error e => .error e
      | .ok n =>
        if n < 0 ∨ n > 5 then
          .ok (extractErr (("Invalid severity rating: ").toList ++ pyStr severity) raw)
        else .ok analysis

/-- `extract_json_from_response` (bulk_analysis_agent.py, lines 17-57): any
exception is caught and turned into a tagged error dict carrying a truncated
rendering of the offending message. -/
def extract_json_from_response (result_message : Json) : Json :=
  match (match extractParseStage result_message with
         | .error e => (.error e : Except (List Char) Json)
         | .ok (raw, analysis) => extractValidate raw analysis) with
  | .ok j => j
  | .error e =>
    extractErr (("JSON parsing failed: ").toList ++ e) (pyStr result_message)

/-- Summary/decision key names. -/
def statusK : List Char := ("status").toList

/-- The workflow tag key. -/
def workflowK : List Char := ("workflow").toList

/-- The error-message key of a summary. -/
def messageK : List Char := ("message").toList

/-- `action_taken` key of a triage decision. -/
def actionTakenK : List Char := ("action_taken").toList

/-- `status_update` key of a triage decision. -/
def statusUpdateK : List Char := ("status_update").toList

/-- `escalate` key of a triage decision. -/
def escalateK : List Char := ("escalate").toList

/-- `notification_required` key of a triage decision. -/
def notifReqK : List Char := ("notification_required").toList

/-- `notification_type` key of a triage decision. -/
def notifTypeK : List Char := ("notification_type").toList

/-- `triage_decision` (secops_agent.py, lines 251-283): deterministic
code-based triage routing by severity. -/
def triage_decision (severity_rating : Int) : Json :=
  if severity_rating ≤ 2 then
    Json.mkObj [(actionTakenK, .str (("auto_close").toList)),
      (statusUpdateK, .str (("closed").toList)),
      (escalateK, .bool false),
      (notifReqK, .bool false)]
  else if severity_rating = 3 then
    Json.mkObj [(actionTakenK, .str (("monitor").toList)),
      (statusUpdateK, .str (("open").toList)),
      (escalateK, .bool false),
      (notifReqK, .bool false)]
  else
    Json.mkObj [(actionTakenK, .str (("escalate").toList)),
      (statusUpdateK, .str (("investigating").toList)),
      (escalateK, .bool true),
      (notifReqK, .bool true),
      (notifTypeK, .str (("critical").toList))]

/-- One observable interaction with an external collaborator: a model
invocation or a backend write (the arguments recorded are the
algorithmically relevant ones; prompt text and display strings are glue). -/
inductive Call where
  | invokeModel : Call
  | updateEvent (event_id severity analysis recommendations : Json) (status : List Char) : Call
  | createEscalation (event_id severity : Json) : Call
  | bulkUpdate (event_ids severity analysis recommendations : Json) (status : List Char) : Call
  | campaignEscalation (severity event_ids : Json) : Call

/-- Is the call a backend write? -/
def Call.isWrite : Call → Bool
  | .invokeModel => false
  | _ => true

/-- Behaviour of the external collaborators during one request: the model's
reply text and the backend's per-call outcomes (`bulkOk`/`campEscOk`/
`campEscId` indexed by campaign position in the monitor loop). -/
structure Env where
  modelResponse : List Char
  updateOk : Bool
  escalationOk : Bool
  bulkOk : Nat → Bool
  campEscOk : Nat → Bool
  campEscId : Nat → Option Int

/-- The analyze workflow's error summary (secops_agent.py, lines 423-428). -/
def errSummaryAnalyze (e : List Char) : Json :=
  Json.mkObj [(statusK, .str (("error").toList)),
    (workflowK, .str (("analyze").toList)), (messageK, .str e)]

/-- Body of the `try` block of `handle_analyze_workflow` (secops_agent.py,
lines 342-420): model invocation, extraction, code-based triage, then the
backend writes.  Any exception is caught at this level and becomes an error
summary; the calls already issued remain issued. -/
def analyzeTry (_event event_id : Json) (env : Env) : Json × List Call :=
  let calls := [Call.invokeModel]
  let analysis := parse_json_response env.modelResponse
  let chk : Except (List Char) Bool :=
    if pyFalsy analysis then .ok true
    else do
      let b ← pyIn sevKey analysis
      pure (!b)
  match chk with
  | .error e => (errSummaryAnalyze e, calls)
  | .ok true =>
    (errSummaryAnalyze (("Security agent returned invalid analysis").toList), calls)
  | .ok false =>
    match pyGetItem analysis sevKey with
    | .error e => (errSummaryAnalyze e, calls)
    | .ok severity =>
      match asIntE severity with
      | .error e => (errSummaryAnalyze e, calls)
      | .ok sevInt =>
        let triage := triage_decision sevInt
        let status := match Json.getKey? triage statusUpdateK with
          | some (.str s) => s
          | _ => []
        match pyGetD analysis secAnKey (Json.str []) with
        | .error e => (errSummaryAnalyze e, calls)
        | .ok secAnV =>
          match pyGetD analysis recActKey (Json.str []) with
          | .error e => (errSummaryAnalyze e, calls)
          | .ok recActV =>
            let calls := calls ++ [Call.updateEvent event_id severity secAnV recActV status]
            let backend0 := [(("analysis_updated").toList, Json.bool env.updateOk)]
            let escFlag := match Json.getKey? triage escalateK with
              | some (.bool b) => b
              | _ => false
            let (calls, backend) :=
              if escFlag then
                (calls ++ [Call.createEscalation event_id severity],
                 backend0 ++ [(("escalation_created").toList, Json.bool env.escalationOk)])
              else (calls, backend0)
            (Json.mkObj [(statusK, .str (("success").toList)),
                (workflowK, .str (("analyze").toList)),
                (("event_id").toList, event_id),
                (("analysis").toList, analysis),
                (("triage").toList, triage),
                (("backend_actions_completed").toList, Json.mkObj backend)],
             calls)

/-- `handle_analyze_workflow` (secops_agent.py, lines 329-428).  The event is
the request's `event` field; the checks before the `try` block can raise to
the caller (modelled by the outer `Except`). -/
def handle_analyze_workflow (event : Json) (env : Env) : Except (List Char) (Json × List Call) :=
  if pyFalsy event then
    .ok (Json.mkObj [(statusK, .str (("error").toList)),
      (messageK, .str (("No event data provided").toList))], [])
  else
    match pyGetD event (("id").toList) Json.null with
    | .error e => .error e
    | .ok event_id => .ok (analyzeTry event event_id env)

/-- The monitor workflow's error summary (secops_agent.py, lines 566-571). -/
def errSummaryMonitor (e : List Char) : Json :=
  Json.mkObj [(statusK, .str (("error").toList)),
    (workflowK, .str (("monitor").toList)), (messageK, .str e)]

/-- The monitor workflow's zero-open-events summary (secops_agent.py,
lines 451-458). -/
def emptyMonitorSummary : Json :=
  Json.mkObj [(statusK, .str (("success").toList)),
    (workflowK, .str (("monitor").toList)),
    (messageK, .str (("No open events to analyze").toList)),
    (("campaigns_detected").toList, Json.int 0)]

/-- The `campaigns` key of the monitoring model's reply. -/
def campaignsK : List Char := ("campaigns").toList

/-- The `affected_event_ids` key of a candidate campaign. -/
def affectedK : List Char := ("affected_event_ids").toList

/-- Per-campaign bulk-action loop of the monitor workflow (secops_agent.py,
lines 516-555): one bulk status update (hard-coded status `investigating`)
plus one campaign escalation per candidate campaign, counters accumulated
from the backend outcomes.  An exception aborts the loop (and the whole
`try` block), keeping the calls already issued. -/
def processCampaigns (env : Env) :
    List Json → Nat → List Call → Int → Int → List Json →
    Except (List Char × List Call) (List Call × Int × Int × List Json)
  | [], _, calls, upd, esc, ids => .ok (calls, upd, esc, ids)
  | c :: rest, i, calls, upd, esc, ids =>
    match pyGetD c (("campaign_id").toList) Json.null with
    | .error e => .error (e, calls)
    | .ok _ =>
    match pyGetD c affectedK (Json.mkArr []) with
    | .error e => .error (e, calls)
    | .ok affected =>
    match pyGetD c sevKey (Json.int 4) with
    | .error e => .error (e, calls)
    | .ok severity =>
    match pyLen affected with
    | .error e => .error (e, calls)
    | .ok nAff =>
    match pyGetD c secAnKey (Json.str []) with
    | .error e => .error (e, calls)
    | .ok secAnV =>
    match pyGetD c recActKey (Json.str []) with
    | .error e => .error (e, calls)
    | .ok recActV =>
      processCampaigns env rest (i + 1)
        ((calls ++ [Call.bulkUpdate affected severity secAnV recActV (("investigating").toList)]) ++
          [Call.campaignEscalation severity affected])
        (if env.bulkOk i then upd + (nAff : Int) else upd)
        (if env.campEscOk i then esc + 1 else esc)
        (if env.campEscOk i then
            match env.campEscId i with
            | some eid => ids ++ [Json.int eid]
            | none => ids
          else ids)

/-- Body of the `try` block of `handle_monitor_workflow` (secops_agent.py,
lines 440-563), parameterised by the JSON text returned by the
`get_open_events` fetch.  Ends either in a summary or in an exception paired
with the calls issued so far. -/
def monitorTry (eventsJson : List Char) (env : Env) :
    Except (List Char × List Call) (Json × List Call) :=
  match pyLoads eventsJson with
  | .error e => .error (e, [])
  | .ok events_data =>
  match pyIn errKey events_data with
  | .error e => .error (e, [])
  | .ok hasErr =>
  if hasErr then
    match pyGetItem events_data errKey with
    | .error e => .error (e, [])
    | .ok msg =>
      .ok (Json.mkObj [(statusK, .str (("error").toList)), (messageK, msg)], [])
  else
  match (match events_data with
         | .arr _ => (.ok events_data : Except (List Char) Json)
         | _ => pyGetD events_data (("events").toList) (Json.mkArr [])) with
  | .error e => .error (e, [])
  | .ok events =>
  if pyFalsy events then .ok (emptyMonitorSummary, [])
  else
  match pyLen events with
  | .error e => .error (e, [])
  | .ok _ =>
  let calls := [Call.invokeModel]
  let monitoring_data := parse_json_response env.modelResponse
  let chk : Except (List Char) Bool :=
    if pyFalsy monitoring_data then .ok true
    else do
      let b ← pyIn campaignsK monitoring_data
      pure (!b)
  match chk with
  | .error e => .error (e, calls)
  | .ok true =>
    .error ((("Monitoring agent returned invalid response").toList), calls)
  | .ok false =>
  match pyGetItem monitoring_data campaignsK with
  | .error e => .error (e, calls)
  | .ok campaigns =>
  match pyLen campaigns with
  | .error e => .error (e, calls)
  | .ok _ =>
  match pyIter campaigns with
  | .error e => .error (e, calls)
  | .ok cs =>
  match processCampaigns env cs 0 calls 0 0 [] with
  | .error ec => .error ec
  | .ok (calls2, upd, esc, ids) =>
    .ok (Json.mkObj [(statusK, .str (("success").toList)),
        (workflowK, .str (("monitor").toList)),
        (("campaigns_detected").toList, campaigns),
        (("backend_actions_completed").toList, Json.mkObj
          [(("total_events_updated").toList, Json.int upd),
           (("escalations_created").toList, Json.int esc),
           (("escalation_ids").toList, Json.mkArr ids)])],
     calls2)

/-- `handle_monitor_workflow` (secops_agent.py, lines 431-571),
parameterised by the fetch result and the collaborator behaviour. -/
def handle_monitor_workflow (eventsJson : List Char) (env : Env) : Json × List Call :=
  match monitorTry eventsJson env with
  | .ok r => r
  | .error (e, calls) => (errSummaryMonitor e, calls)

/-- A well-formed analysis record (spec section 3): severity plus the two
required free-text fields (the optional rationale field is not part of the
record; its absence must not affect validity). -/
structure Analysis where
  severity_rating : Int
  security_analysis : List Char
  recommended_actions : List Char
deriving DecidableEq

/-- The JSON object of an analysis record. -/
def Analysis.toJson (a : Analysis) : Json :=
  Json.mkObj [(sevKey, .int a.severity_rating),
    (secAnKey, .str a.security_analysis),
    (recActKey, .str a.recommended_actions)]

/-- Read an analysis record back off a JSON value. -/
def Analysis.ofJson : Json → Option Analysis
  | .obj kvs =>
    match jsonLookup kvs sevKey, jsonLookup kvs secAnKey, jsonLookup kvs recActKey with
    | some (.int n), some (.str s1), some (.str s2) => some ⟨n, s1, s2⟩
    | _, _, _ => none
  | _ => none

/-- Hexadecimal digit (lowercase). -/
def hexDig (n : Nat) : Char :=
  if n < 10 then Char.ofNat (48 + n) else Char.ofNat (87 + n)

/-- JSON string escaping of one character (the `json.dumps` rendering with
`ensure_ascii` off): quote, backslash and the named control escapes, `\u00XX`
for the remaining control characters, everything else literal. -/
def escapeChar (c : Char) : List Char :=
  if c = Char.ofNat 34 then [Char.ofNat 92, Char.ofNat 34]
  else if c = Char.ofNat 92 then [Char.ofNat 92, Char.ofNat 92]
  else if c = Char.ofNat 8 then [Char.ofNat 92, 'b']
  else if c = Char.ofNat 12 then [Char.ofNat 92, 'f']
  else if c = '\n' then [Char.ofNat 92, 'n']
  else if c = Char.ofNat 13 then [Char.ofNat 92, 'r']
  else if c = Char.ofNat 9 then [Char.ofNat 92, 't']
  else if c.toNat < 32 then
    [Char.ofNat 92, 'u', '0', '0', hexDig (c.toNat / 16), hexDig (c.toNat % 16)]
  else [c]

/-- JSON string escaping. -/
def escapeStr : List Char → List Char
  | [] => []
  | c :: cs => escapeChar c ++ escapeStr cs

/-- JSON serialization of an analysis record (the `json.dumps` rendering of
the corresponding dict, separators `", "` and `": "`). -/
def Analysis.dump (a : Analysis) : List Char :=
  ("\x7b\"severity_rating\": ").toList ++ ((toString a.severity_rating).toList ++
    ((", \"security_analysis\": \"").toList ++ (escapeStr a.security_analysis ++
      (("\", \"recommended_actions\": \"").toList ++ (escapeStr a.recommended_actions ++
        ("\"\x7d").toList)))))

/-- Wrap a serialized document in a JSON-tagged markdown code fence. -/
def wrapFence (doc : List Char) : List Char :=
  ("```json\n").toList ++ (doc ++ ("\n```").toList)

/-- The agent-message shape `\x7b'content': [\x7b'text': t\x7d]\x7d` in which a model reply
reaches `extract_json_from_response`. -/
def mkAgentMsg (t : List Char) : Json :=
  Json.mkObj [(("content").toList, Json.mkArr [Json.mkObj [(("text").toList, Json.str t)]])]

/-- No run of three backticks occurs in the string. -/
def noTripleBacktick (s : List Char) : Bool := !(containsSub fenceSep s)

/-- The severity value passes the code's validity check
(`isinstance(severity, int) and 0 <= severity <= 5`, booleans counting as
ints). -/
def sevValid : Json → Bool
  | .int n => decide (0 ≤ n) && decide (n ≤ 5)
  | .bool _ => true
  | _ => false

/-- The value carries the three required analysis fields (in the sense of the
code's `in` test) and a valid severity. -/
def validAnalysisB (j : Json) : Bool :=
  match pyIn sevKey j, pyIn secAnKey j, pyIn recActKey j with
  | .ok true, .ok true, .ok true =>
    match pyGetItem j sevKey with
    | .ok v => sevValid v
    | .error _ => false
  | _, _, _ => false

/-- The value is a tagged extraction error (it has an `error` key). -/
def isTaggedErr (j : Json) : Bool := (j.getKey? errKey).isSome

/-- The backtick character (used to state fence-related lemmas). -/
def btChar : Char := Char.ofNat 96

/-- A candidate campaign on which the monitor loop's Python operations are
all well-typed: a dict whose `affected_event_ids`, when present, is a list
(the absent-key default is the empty list). -/
def wtCampaign : Json → Bool
  | .obj kvs =>
    match jsonLookup kvs affectedK with
    | some (.arr _) => true
    | none => true
    | some _ => false
  | _ => false

/-- `c.get(key, dflt)` as a total function on a campaign dict (used to state
theorems about the monitor loop). -/
def cGet (c : Json) (key : List Char) (dflt : Json) : Json :=
  match c with
  | .obj kvs => (jsonLookup kvs key).getD dflt
  | _ => dflt

/-- The two backend calls the monitor loop issues for one candidate
campaign: a bulk status update with the hard-coded status `investigating`,
followed unconditionally by one campaign escalation. -/
def campaignCalls (c : Json) : List Call :=
  [Call.bulkUpdate (cGet c affectedK (Json.mkArr [])) (cGet c sevKey (Json.int 4))
     (cGet c secAnKey (Json.str [])) (cGet c recActKey (Json.str []))
     (("investigating").toList),
   Call.campaignEscalation (cGet c sevKey (Json.int 4)) (cGet c affectedK (Json.mkArr []))]

/-- C1: for every severity in [0,5], `triage_decision` returns exactly the
row of the spec's decision table: severities 0-2 give
auto_close/closed/no-escalation/no-notification, severity 3 gives
monitor/open/no-escalation/no-notification, severities 4-5 give
escalate/investigating with escalation, notification required and
notification type critical. -/
theorem triage_decision_decision_table :
    (∀ n : Int, 0 ≤ n → n ≤ 2 →
      triage_decision n = Json.mkObj [(actionTakenK, .str (("auto_close").toList)),
        (statusUpdateK, .str (("closed").toList)),
        (escalateK, .bool false), (notifReqK, .bool false)]) ∧
    (triage_decision 3 = Json.mkObj [(actionTakenK, .str (("monitor").toList)),
        (statusUpdateK, .str (("open").toList)),
        (escalateK, .bool false), (notifReqK, .bool false)]) ∧
    (∀ n : Int, 4 ≤ n → n ≤ 5 →
      triage_decision n = Json.mkObj [(actionTakenK, .str (("escalate").toList)),
        (statusUpdateK, .str (("investigating").toList)),
        (escalateK, .bool true), (notifReqK, .bool true),
        (notifTypeK, .str (("critical").toList))]) := by
  refine ⟨fun n h0 h2 => ?_, rfl, fun n h4 h5 => ?_⟩
  · rw [triage_decision, if_pos h2]
  · rw [triage_decision, if_neg (by omega), if_neg (by omega)]

/-- Witness for C1: the decision-table theorem applied at severities 0, 3
and 5. -/
theorem triage_decision_decision_table_witness :
    triage_decision 0 = Json.mkObj [(actionTakenK, .str (("auto_close").toList)),
        (statusUpdateK, .str (("closed").toList)),
        (escalateK, .bool false), (notifReqK, .bool false)] ∧
    triage_decision 3 = Json.mkObj [(actionTakenK, .str (("monitor").toList)),
        (statusUpdateK, .str (("open").toList)),
        (escalateK, .bool false), (notifReqK, .bool false)] ∧
    triage_decision 5 = Json.mkObj [(actionTakenK, .str (("escalate").toList)),
        (statusUpdateK, .str (("investigating").toList)),
        (escalateK, .bool true), (notifReqK, .bool true),
        (notifTypeK, .str (("critical").toList))] :=
  ⟨triage_decision_decision_table.1 0 (by norm_num) (by norm_num),
   triage_decision_decision_table.2.1,
   triage_decision_decision_table.2.2 5 (by norm_num) (by norm_num)⟩

/-- C10: `triage_decision` is total over all integers, not only [0,5]: every
severity less than or equal to 2 (including every negative integer) yields
the auto_close/closed row, and every severity greater than or equal to 4
(including every integer above 5) yields the escalate/investigating row with
critical notification — an out-of-range severity still maps onto one of the
three decision shapes rather than faulting. -/
theorem triage_decision_total_all_ints :
    (∀ n : Int, n ≤ 2 →
      triage_decision n = Json.mkObj [(actionTakenK, .str (("auto_close").toList)),
        (statusUpdateK, .str (("closed").toList)),
        (escalateK, .bool false), (notifReqK, .bool false)]) ∧
    (∀ n : Int, 4 ≤ n →
      triage_decision n = Json.mkObj [(actionTakenK, .str (("escalate").toList)),
        (statusUpdateK, .str (("investigating").toList)),
        (escalateK, .bool true), (notifReqK, .bool true),
        (notifTypeK, .str (("critical").toList))]) := by
  refine ⟨fun n h2 => ?_, fun n h4 => ?_⟩
  · rw [triage_decision, if_pos h2]
  · rw [triage_decision, if_neg (by omega), if_neg (by omega)]

/-- Witness for C10: the totality theorem applied at the out-of-range
severities -7 and 99. -/
theorem triage_decision_total_all_ints_witness :
    triage_decision (-7) = Json.mkObj [(actionTakenK, .str (("auto_close").toList)),
        (statusUpdateK, .str (("closed").toList)),
        (escalateK, .bool false), (notifReqK, .bool false)] ∧
    triage_decision 99 = Json.mkObj [(actionTakenK, .str (("escalate").toList)),
        (statusUpdateK, .str (("investigating").toList)),
        (escalateK, .bool true), (notifReqK, .bool true),
        (notifTypeK, .str (("critical").toList))] :=
  ⟨triage_decision_total_all_ints.1 (-7) (by norm_num),
   triage_decision_total_all_ints.2 99 (by norm_num)⟩

/-- C9: whenever the monitor workflow's fetch of open events returns an empty
list, the workflow returns a success-tagged summary reporting zero campaigns
detected, and issues no model invocation and no backend call at all (the
trace of external calls is empty), whatever the rest of the environment
does. -/
theorem monitor_zero_open_events (eventsJson : List Char) (env : Env)
    (h : pyLoads eventsJson = .ok (Json.mkArr [])) :
    handle_monitor_workflow eventsJson env =
      (Json.mkObj [(statusK, .str (("success").toList)),
        (workflowK, .str (("monitor").toList)),
        (messageK, .str (("No open events to analyze").toList)),
        (("campaigns_detected").toList, Json.int 0)], []) := by
  unfold handle_monitor_workflow monitorTry
  rw [h]
  rfl

/-- Witness for C9: the empty fetch result `[]` with a concrete environment. -/
theorem monitor_zero_open_events_witness :
    handle_monitor_workflow (("[]").toList)
        ⟨[], true, true, fun _ => true, fun _ => true, fun _ => none⟩ =
      (Json.mkObj [(statusK, .str (("success").toList)),
        (workflowK, .str (("monitor").toList)),
        (messageK, .str (("No open events to analyze").toList)),
        (("campaigns_detected").toList, Json.int 0)], []) :=
  monitor_zero_open_events (("[]").toList) _ rfl

/-- C5 counterexample: on the spec's own rejection example (severity 6 with
both text fields present), the secops extraction routine
`parse_json_response` — one of the two extraction routines — returns the
populated object untouched, with no tagged error key, i.e. a populated
Analysis with an out-of-range severity. -/
theorem parse_json_response_accepts_out_of_range_severity :
    parse_json_response (("\x7b\"severity_rating\": 6, \"security_analysis\": \"x\", \"recommended_actions\": \"y\"\x7d").toList) =
      Json.mkObj [(sevKey, Json.int 6), (secAnKey, Json.str (("x").toList)),
        (recActKey, Json.str (("y").toList))] ∧
    Analysis.ofJson (parse_json_response (("\x7b\"severity_rating\": 6, \"security_analysis\": \"x\", \"recommended_actions\": \"y\"\x7d").toList)) =
      some ⟨6, ("x").toList, ("y").toList⟩ ∧
    (parse_json_response (("\x7b\"severity_rating\": 6, \"security_analysis\": \"x\", \"recommended_actions\": \"y\"\x7d").toList)).getKey? errKey = none :=
  ⟨rfl, rfl, rfl⟩

/-- C5 (amended): the severity validation lives in the bulk-analysis agent's
extractor only: whenever the (unwrapped, de-fenced, parsed) object passes the
required-field tests and its severity fails the integer-type-and-range check,
`extract_json_from_response` returns the tagged error carrying the offending
value and never a populated Analysis; the secops `parse_json_response`
performs no severity validation (see the counterexample). -/
theorem extract_invalid_severity (msg : Json) (raw : List Char) (o v : Json)
    (hp : extractParseStage msg = .ok (raw, o))
    (h1 : pyIn sevKey o = .ok true) (h2 : pyIn secAnKey o = .ok true)
    (h3 : pyIn recActKey o = .ok true) (hv : pyGetItem o sevKey = .ok v)
    (hbad : sevValid v = false) :
    extract_json_from_response msg =
      extractErr (("Invalid severity rating: ").toList ++ pyStr v) raw ∧
    Analysis.ofJson (extract_json_from_response msg) = none := by
  have hval : extractValidate raw o =
      .ok (extractErr (("Invalid severity rating: ").toList ++ pyStr v) raw) := by
    unfold extractValidate
    rw [h1, h2, h3, hv]
    cases v with
    | int n =>
      have hc : n < 0 ∨ n > 5 := by
        simp only [sevValid, Bool.and_eq_false_iff, decide_eq_false_iff_not] at hbad
        omega
      simp only [isIntLike, Bool.not_true, Bool.false_eq_true, if_false, asIntE, if_pos hc]
    | bool b => simp [sevValid] at hbad
    | null => rfl
    | str s => rfl
    | arr xs => rfl
    | obj kvs => rfl
  constructor
  · unfold extract_json_from_response
    simp only [hp, hval]
  · unfold extract_json_from_response
    simp only [hp, hval]
    rfl

/-- Witness for the amended C5: the rejection example delivered directly as
the agent reply string; the extractor returns the tagged
`Invalid severity rating: 6` error and no analysis record. -/
theorem extract_invalid_severity_witness :
    extractParseStage (Json.str (("\x7b\"severity_rating\": 6, \"security_analysis\": \"x\", \"recommended_actions\": \"y\"\x7d").toList)) =
      .ok ((("\x7b\"severity_rating\": 6, \"security_analysis\": \"x\", \"recommended_actions\": \"y\"\x7d").toList),
        Json.mkObj [(sevKey, Json.int 6), (secAnKey, Json.str (("x").toList)),
          (recActKey, Json.str (("y").toList))]) ∧
    sevValid (Json.int 6) = false ∧
    extract_json_from_response (Json.str (("\x7b\"severity_rating\": 6, \"security_analysis\": \"x\", \"recommended_actions\": \"y\"\x7d").toList)) =
      extractErr (("Invalid severity rating: 6").toList)
        (("\x7b\"severity_rating\": 6, \"security_analysis\": \"x\", \"recommended_actions\": \"y\"\x7d").toList) ∧
    Analysis.ofJson (extract_json_from_response (Json.str (("\x7b\"severity_rating\": 6, \"security_analysis\": \"x\", \"recommended_actions\": \"y\"\x7d").toList))) = none := by
  refine ⟨rfl, rfl, ?_, ?_⟩
  · exact (extract_invalid_severity
      (Json.str (("\x7b\"severity_rating\": 6, \"security_analysis\": \"x\", \"recommended_actions\": \"y\"\x7d").toList))
      (("\x7b\"severity_rating\": 6, \"security_analysis\": \"x\", \"recommended_actions\": \"y\"\x7d").toList)
      (Json.mkObj [(sevKey, Json.int 6), (secAnKey, Json.str (("x").toList)),
        (recActKey, Json.str (("y").toList))])
      (Json.int 6) rfl rfl rfl rfl rfl rfl).1
  · exact (extract_invalid_severity
      (Json.str (("\x7b\"severity_rating\": 6, \"security_analysis\": \"x\", \"recommended_actions\": \"y\"\x7d").toList))
      (("\x7b\"severity_rating\": 6, \"security_analysis\": \"x\", \"recommended_actions\": \"y\"\x7d").toList)
      (Json.mkObj [(sevKey, Json.int 6), (secAnKey, Json.str (("x").toList)),
        (recActKey, Json.str (("y").toList))])
      (Json.int 6) rfl rfl rfl rfl rfl rfl).2

/-- C6 counterexample: on the spec's own missing-field example (no
`recommended_actions`), the secops extraction routine `parse_json_response`
— one of the two extraction routines — returns the partial object with no
tagged MissingField error. -/
theorem parse_json_response_accepts_missing_field :
    parse_json_response (("\x7b\"severity_rating\": 3, \"security_analysis\": \"x\"\x7d").toList) =
      Json.mkObj [(sevKey, Json.int 3), (secAnKey, Json.str (("x").toList))] ∧
    (parse_json_response (("\x7b\"severity_rating\": 3, \"security_analysis\": \"x\"\x7d").toList)).getKey? errKey = none :=
  ⟨rfl, rfl⟩

/-- C6 (amended): the required-field validation lives in the bulk-analysis
agent's extractor only: whenever the extracted object fails one of the three
required-field tests, `extract_json_from_response` returns the tagged error
naming the first missing field rather than a populated Analysis, and an
object carrying the three required fields and a valid severity is returned
as-is — in particular the absence of the optional `rating_reason` field
alone never invalidates a result.  The secops `parse_json_response` performs
no field validation (see the counterexample). -/
theorem extract_missing_field :
    (∀ msg raw o, extractParseStage msg = .ok (raw, o) → pyIn sevKey o = .ok false →
      extract_json_from_response msg =
        extractErr (("Missing required field: ").toList ++ sevKey) raw) ∧
    (∀ msg raw o, extractParseStage msg = .ok (raw, o) → pyIn sevKey o = .ok true →
      pyIn secAnKey o = .ok false →
      extract_json_from_response msg =
        extractErr (("Missing required field: ").toList ++ secAnKey) raw) ∧
    (∀ msg raw o, extractParseStage msg = .ok (raw, o) → pyIn sevKey o = .ok true →
      pyIn secAnKey o = .ok true → pyIn recActKey o = .ok false →
      extract_json_from_response msg =
        extractErr (("Missing required field: ").toList ++ recActKey) raw) ∧
    (∀ msg raw o v, extractParseStage msg = .ok (raw, o) → pyIn sevKey o = .ok true →
      pyIn secAnKey o = .ok true → pyIn recActKey o = .ok true →
      pyGetItem o sevKey = .ok v → sevValid v = true →
      extract_json_from_response msg = o) := by
  refine ⟨fun msg raw o hp h1 => ?_, fun msg raw o hp h1 h2 => ?_,
    fun msg raw o hp h1 h2 h3 => ?_, fun msg raw o v hp h1 h2 h3 hv hval => ?_⟩
  · have hv : extractValidate raw o =
        .ok (extractErr (("Missing required field: ").toList ++ sevKey) raw) := by
      unfold extractValidate
      rw [h1]
    unfold extract_json_from_response
    simp only [hp, hv]
  · have hv : extractValidate raw o =
        .ok (extractErr (("Missing required field: ").toList ++ secAnKey) raw) := by
      unfold extractValidate
      rw [h1, h2]
    unfold extract_json_from_response
    simp only [hp, hv]
  · have hv : extractValidate raw o =
        .ok (extractErr (("Missing required field: ").toList ++ recActKey) raw) := by
      unfold extractValidate
      rw [h1, h2, h3]
    unfold extract_json_from_response
    simp only [hp, hv]
  · have hok : extractValidate raw o = .ok o := by
      unfold extractValidate
      rw [h1, h2, h3, hv]
      cases v with
      | int n =>
        have hr : ¬(n < 0 ∨ n > 5) := by
          simp only [sevValid, Bool.and_eq_true, decide_eq_true_eq] at hval
          omega
        simp only [isIntLike, Bool.not_true, Bool.false_eq_true, if_false, asIntE, if_neg hr]
      | bool b =>
        cases b with
        | false =>
          simp only [isIntLike, Bool.not_true, Bool.false_eq_true, if_false, asIntE]
          rw [if_neg (by norm_num)]
        | true =>
          simp only [isIntLike, Bool.not_true, Bool.false_eq_true, if_false, asIntE]
          rw [if_neg (by norm_num)]
      | null => simp [sevValid] at hval
      | str s => simp [sevValid] at hval
      | arr xs => simp [sevValid] at hval
      | obj kvs => simp [sevValid] at hval
    unfold extract_json_from_response
    simp only [hp, hok]

/-- Witness for the amended C6: the spec's missing-`recommended_actions`
example yields the tagged MissingField error, and a complete record without
the optional `rating_reason` field is returned unchanged. -/
theorem extract_missing_field_witness :
    extract_json_from_response (Json.str (("\x7b\"severity_rating\": 3, \"security_analysis\": \"x\"\x7d").toList)) =
      extractErr (("Missing required field: recommended_actions").toList)
        (("\x7b\"severity_rating\": 3, \"security_analysis\": \"x\"\x7d").toList) ∧
    extract_json_from_response (Json.str (("\x7b\"severity_rating\": 3, \"security_analysis\": \"x\", \"recommended_actions\": \"y\"\x7d").toList)) =
      Json.mkObj [(sevKey, Json.int 3), (secAnKey, Json.str (("x").toList)),
        (recActKey, Json.str (("y").toList))] := by
  constructor
  · exact extract_missing_field.2.2.1
      (Json.str (("\x7b\"severity_rating\": 3, \"security_analysis\": \"x\"\x7d").toList))
      (("\x7b\"severity_rating\": 3, \"security_analysis\": \"x\"\x7d").toList)
      (Json.mkObj [(sevKey, Json.int 3), (secAnKey, Json.str (("x").toList))])
      rfl rfl rfl rfl
  · exact extract_missing_field.2.2.2
      (Json.str (("\x7b\"severity_rating\": 3, \"security_analysis\": \"x\", \"recommended_actions\": \"y\"\x7d").toList))
      (("\x7b\"severity_rating\": 3, \"security_analysis\": \"x\", \"recommended_actions\": \"y\"\x7d").toList)
      (Json.mkObj [(sevKey, Json.int 3), (secAnKey, Json.str (("x").toList)),
        (recActKey, Json.str (("y").toList))])
      (Json.int 3) rfl rfl rfl rfl rfl rfl

/-- C4 counterexample: a model reply whose extracted object is invalid (it
lacks `recommended_actions` and carries the out-of-range severity 6) does
not abort the analyze workflow: the workflow returns a success-tagged
summary and performs both backend writes (event update with severity 6 and
escalation creation). -/
theorem analyze_invalid_analysis_writes_anyway :
    validAnalysisB (parse_json_response (("\x7b\"severity_rating\": 6, \"security_analysis\": \"x\"\x7d").toList)) = false ∧
    handle_analyze_workflow (Json.mkObj [(("id").toList, Json.int 123)])
        ⟨("\x7b\"severity_rating\": 6, \"security_analysis\": \"x\"\x7d").toList,
          true, true, fun _ => true, fun _ => true, fun _ => none⟩ =
      .ok (Json.mkObj [(statusK, .str (("success").toList)),
          (workflowK, .str (("analyze").toList)),
          (("event_id").toList, Json.int 123),
          (("analysis").toList, Json.mkObj [(sevKey, Json.int 6),
            (secAnKey, Json.str (("x").toList))]),
          (("triage").toList, triage_decision 6),
          (("backend_actions_completed").toList, Json.mkObj
            [(("analysis_updated").toList, Json.bool true),
             (("escalation_created").toList, Json.bool true)])],
        [Call.invokeModel,
         Call.updateEvent (Json.int 123) (Json.int 6) (Json.str (("x").toList))
           (Json.str []) (("investigating").toList),
         Call.createEscalation (Json.int 123) (Json.int 6)]) :=
  ⟨rfl, rfl⟩

/-- C4 (amended): the analyze workflow aborts with an error-tagged summary
and no backend write only when the extracted analysis is falsy (e.g. the
empty dict produced on a parse failure), lacks the `severity_rating` key, or
the membership test itself faults; an extracted object that carries
`severity_rating` is not validated further, so a missing text field or an
out-of-range severity does not prevent backend writes (see the
counterexample). -/
theorem analyze_invalid_extraction_no_writes (event : Json) (env : Env) (eid : Json)
    (hev : pyFalsy event = false)
    (hid : pyGetD event (("id").toList) Json.null = .ok eid)
    (hbad : pyFalsy (parse_json_response env.modelResponse) = true ∨
      pyIn sevKey (parse_json_response env.modelResponse) = .ok false ∨
      ∃ e, pyIn sevKey (parse_json_response env.modelResponse) = .error e) :
    ∃ m, handle_analyze_workflow event env = .ok (errSummaryAnalyze m, [Call.invokeModel]) ∧
      List.filter Call.isWrite [Call.invokeModel] = [] := by
  unfold handle_analyze_workflow
  rw [hev]
  simp only [Bool.false_eq_true, if_false, hid]
  rcases hbad with hf | hin | ⟨e, hin⟩
  · simp only [analyzeTry, hf, if_true]
    exact ⟨("Security agent returned invalid analysis").toList, rfl, rfl⟩
  · cases hf : pyFalsy (parse_json_response env.modelResponse) with
    | true =>
      simp only [analyzeTry, hf, if_true]
      exact ⟨("Security agent returned invalid analysis").toList, rfl, rfl⟩
    | false =>
      simp only [analyzeTry, hf, Bool.false_eq_true, if_false, hin, bind, Except.bind,
        pure, Except.pure, Bool.not_false]
      exact ⟨("Security agent returned invalid analysis").toList, rfl, rfl⟩
  · cases hf : pyFalsy (parse_json_response env.modelResponse) with
    | true =>
      simp only [analyzeTry, hf, if_true]
      exact ⟨("Security agent returned invalid analysis").toList, rfl, rfl⟩
    | false =>
      simp only [analyzeTry, hf, Bool.false_eq_true, if_false, hin, bind, Except.bind,
        pure, Except.pure]
      exact ⟨e, rfl, rfl⟩

/-- Witness for the amended C4: a reply parsing to an object without
`severity_rating` yields the error summary after the model invocation and no
backend write. -/
theorem analyze_invalid_extraction_no_writes_witness :
    pyFalsy (Json.mkObj [(("id").toList, Json.int 123)]) = false ∧
    pyIn sevKey (parse_json_response (("\x7b\"attack_type\": \"x\"\x7d").toList)) = .ok false ∧
    (∃ m, handle_analyze_workflow (Json.mkObj [(("id").toList, Json.int 123)])
        ⟨("\x7b\"attack_type\": \"x\"\x7d").toList, true, true,
          fun _ => true, fun _ => true, fun _ => none⟩ =
      .ok (errSummaryAnalyze m, [Call.invokeModel]) ∧
      List.filter Call.isWrite [Call.invokeModel] = []) :=
  ⟨rfl, rfl,
   analyze_invalid_extraction_no_writes (Json.mkObj [(("id").toList, Json.int 123)])
     ⟨("\x7b\"attack_type\": \"x\"\x7d").toList, true, true,
       fun _ => true, fun _ => true, fun _ => none⟩
     (Json.int 123) rfl rfl (Or.inr (Or.inl rfl))⟩

/-- `dict.get` on an object never raises. -/
theorem pyGetD_obj (kvs : JsonO) (k : List Char) (d : Json) :
    pyGetD (Json.obj kvs) k d = .ok ((jsonLookup kvs k).getD d) := by
  unfold pyGetD
  cases h : jsonLookup kvs k <;> simp [h]

/-- Round trip between array spines and lists. -/
theorem JsonA.toList_ofList (xs : List Json) : JsonA.toList (JsonA.ofList xs) = xs := by
  induction xs with
  | nil => rfl
  | cons x rest ih => simpa [JsonA.ofList, JsonA.toList] using ih

/-- A dict with a bound key is truthy. -/
theorem pyFalsy_obj_of_lookup {kvs : JsonO} {k : List Char} {v : Json}
    (h : jsonLookup kvs k = some v) : pyFalsy (Json.obj kvs) = false := by
  cases kvs with
  | nil => simp [jsonLookup] at h
  | cons k' v' rest => rfl

/-- The monitor loop issues exactly `campaignCalls c` for each well-typed
candidate campaign `c`, in order, whatever the backend outcomes are (they
only influence the counters). -/
theorem processCampaigns_calls (env : Env) :
    ∀ (cs : List Json), (∀ c ∈ cs, wtCampaign c = true) →
    ∀ i calls upd esc ids, ∃ upd2 esc2 ids2,
      processCampaigns env cs i calls upd esc ids =
        .ok (calls ++ cs.flatMap campaignCalls, upd2, esc2, ids2) := by
  intro cs
  induction cs with
  | nil =>
    intro _ i calls upd esc ids
    exact ⟨upd, esc, ids, by simp [processCampaigns]⟩
  | cons c rest ih =>
    intro hwt i calls upd esc ids
    have hc := hwt c (List.mem_cons_self c rest)
    cases c with
    | obj kvs =>
      unfold processCampaigns
      simp only [pyGetD_obj]
      have hlen : ∃ n, pyLen ((jsonLookup kvs affectedK).getD (Json.mkArr [])) = .ok n := by
        cases haff : jsonLookup kvs affectedK with
        | none => exact ⟨0, rfl⟩
        | some v =>
          cases v with
          | arr a => exact ⟨a.length, rfl⟩
          | null => simp [wtCampaign, haff] at hc
          | bool b => simp [wtCampaign, haff] at hc
          | int n => simp [wtCampaign, haff] at hc
          | str s => simp [wtCampaign, haff] at hc
          | obj o => simp [wtCampaign, haff] at hc
      obtain ⟨n, hn⟩ := hlen
      simp only [hn]
      have hrest : ∀ c' ∈ rest, wtCampaign c' = true := fun c' hm =>
        hwt c' (List.mem_cons_of_mem _ hm)
      obtain ⟨u2, e2, i2, hpc⟩ := ih hrest (i + 1)
        ((calls ++ [Call.bulkUpdate ((jsonLookup kvs affectedK).getD (Json.mkArr []))
            ((jsonLookup kvs sevKey).getD (Json.int 4))
            ((jsonLookup kvs secAnKey).getD (Json.str []))
            ((jsonLookup kvs recActKey).getD (Json.str []))
            (("investigating").toList)]) ++
          [Call.campaignEscalation ((jsonLookup kvs sevKey).getD (Json.int 4))
            ((jsonLookup kvs affectedK).getD (Json.mkArr []))])
        (if env.bulkOk i then upd + (n : Int) else upd)
        (if env.campEscOk i then esc + 1 else esc)
        (if env.campEscOk i then
            match env.campEscId i with
            | some eid => ids ++ [Json.int eid]
            | none => ids
          else ids)
      refine ⟨u2, e2, i2, ?_⟩
      rw [hpc]
      simp only [List.flatMap_cons, campaignCalls, cGet, List.append_assoc, List.cons_append,
        List.nil_append, List.singleton_append]
    | null => simp [wtCampaign] at hc
    | bool b => simp [wtCampaign] at hc
    | int n => simp [wtCampaign] at hc
    | str s => simp [wtCampaign] at hc
    | arr a => simp [wtCampaign] at hc

/-- Trace of the monitor workflow on a nonempty fetch and a reply carrying a
list of well-typed candidate campaigns: one model invocation followed by
`campaignCalls` for every campaign, with the campaign list echoed in the
summary. -/
theorem monitor_trace (eventsJson : List Char) (env : Env) (e0 : Json)
    (evs : List Json) (kvs : JsonO) (cs : List Json)
    (hload : pyLoads eventsJson = .ok (Json.mkArr (e0 :: evs)))
    (herr : JsonA.anyStrEq (JsonA.ofList (e0 :: evs)) errKey = false)
    (hmd : parse_json_response env.modelResponse = Json.obj kvs)
    (hcamp : jsonLookup kvs campaignsK = some (Json.mkArr cs))
    (hwt : ∀ c ∈ cs, wtCampaign c = true) :
    ∃ upd esc ids,
      handle_monitor_workflow eventsJson env =
        (Json.mkObj [(statusK, .str (("success").toList)),
          (workflowK, .str (("monitor").toList)),
          (("campaigns_detected").toList, Json.mkArr cs),
          (("backend_actions_completed").toList, Json.mkObj
            [(("total_events_updated").toList, Json.int upd),
             (("escalations_created").toList, Json.int esc),
             (("escalation_ids").toList, Json.mkArr ids)])],
         Call.invokeModel :: cs.flatMap campaignCalls) := by
  obtain ⟨u2, e2, i2, hpc⟩ :=
    processCampaigns_calls env cs hwt 0 [Call.invokeModel] 0 0 []
  refine ⟨u2, e2, i2, ?_⟩
  unfold handle_monitor_workflow monitorTry
  rw [hload]
  simp only [JsonA.ofList] at herr
  simp only [Json.mkArr, JsonA.ofList, pyIn, herr, Bool.false_eq_true, if_false,
    hmd, pyFalsy_obj_of_lookup hcamp, hcamp, Option.isSome_some, bind,
    Except.bind, pure, Except.pure, Bool.not_true, pyGetItem, pyLen, pyIter,
    JsonA.toList_ofList, hpc, List.cons_append, List.nil_append]
  rfl

/-- C2 counterexample: a campaign whose severity is 3 still receives a bulk
update with the hard-coded status `investigating` — while `triage_decision 3`
prescribes status `open` — and a campaign escalation is created even though
`triage_decision 3` sets no escalate flag.  The monitor workflow never
consults the classify function. -/
theorem monitor_ignores_triage_decision :
    (handle_monitor_workflow (("[\x7b\"id\": 1\x7d]").toList)
      ⟨("\x7b\"campaigns\": [\x7b\"campaign_id\": \"c1\", \"affected_event_ids\": [1], \"severity_rating\": 3\x7d]\x7d").toList,
        true, true, fun _ => true, fun _ => true, fun _ => some 7⟩).2 =
      [Call.invokeModel,
       Call.bulkUpdate (Json.mkArr [Json.int 1]) (Json.int 3) (Json.str [])
         (Json.str []) (("investigating").toList),
       Call.campaignEscalation (Json.int 3) (Json.mkArr [Json.int 1])] ∧
    (triage_decision 3).getKey? statusUpdateK = some (.str (("open").toList)) ∧
    (triage_decision 3).getKey? escalateK = some (.bool false) ∧
    ("investigating").toList ≠ ("open").toList :=
  ⟨rfl, rfl, rfl, by decide⟩

/-- C2 (amended): for every accepted candidate campaign the monitor workflow
issues one bulk update whose status is the hard-coded `investigating` (and
whose severity is the campaign's `severity_rating`, defaulting to 4) and
unconditionally one campaign escalation; `triage_decision` is not applied to
the campaign's severity, so the bulk action agrees with the classify table
only when the severity is 4 or 5 (see the counterexample for severity 3). -/
theorem monitor_bulk_actions (eventsJson : List Char) (env : Env) (e0 : Json)
    (evs : List Json) (kvs : JsonO) (cs : List Json)
    (hload : pyLoads eventsJson = .ok (Json.mkArr (e0 :: evs)))
    (herr : JsonA.anyStrEq (JsonA.ofList (e0 :: evs)) errKey = false)
    (hmd : parse_json_response env.modelResponse = Json.obj kvs)
    (hcamp : jsonLookup kvs campaignsK = some (Json.mkArr cs))
    (hwt : ∀ c ∈ cs, wtCampaign c = true) :
    ∃ upd esc ids,
      handle_monitor_workflow eventsJson env =
        (Json.mkObj [(statusK, .str (("success").toList)),
          (workflowK, .str (("monitor").toList)),
          (("campaigns_detected").toList, Json.mkArr cs),
          (("backend_actions_completed").toList, Json.mkObj
            [(("total_events_updated").toList, Json.int upd),
             (("escalations_created").toList, Json.int esc),
             (("escalation_ids").toList, Json.mkArr ids)])],
         Call.invokeModel :: cs.flatMap campaignCalls) ∧
      ∀ c ∈ cs, campaignCalls c =
        [Call.bulkUpdate (cGet c affectedK (Json.mkArr [])) (cGet c sevKey (Json.int 4))
           (cGet c secAnKey (Json.str [])) (cGet c recActKey (Json.str []))
           (("investigating").toList),
         Call.campaignEscalation (cGet c sevKey (Json.int 4))
           (cGet c affectedK (Json.mkArr []))] := by
  obtain ⟨upd, esc, ids, h⟩ := monitor_trace eventsJson env e0 evs kvs cs hload herr hmd hcamp hwt
  exact ⟨upd, esc, ids, h, fun c _ => rfl⟩

/-- Witness for the amended C2: one open event and one severity-3 campaign;
the workflow issues the `investigating` bulk update and the campaign
escalation prescribed by `campaignCalls`. -/
theorem monitor_bulk_actions_witness :
    ∃ upd esc ids,
      handle_monitor_workflow (("[\x7b\"id\": 1\x7d]").toList)
        ⟨("\x7b\"campaigns\": [\x7b\"campaign_id\": \"c1\", \"affected_event_ids\": [1], \"severity_rating\": 3\x7d]\x7d").toList,
          true, true, fun _ => true, fun _ => true, fun _ => some 7⟩ =
        (Json.mkObj [(statusK, .str (("success").toList)),
          (workflowK, .str (("monitor").toList)),
          (("campaigns_detected").toList, Json.mkArr
            [Json.mkObj [(("campaign_id").toList, Json.str (("c1").toList)),
              (affectedK, Json.mkArr [Json.int 1]), (sevKey, Json.int 3)]]),
          (("backend_actions_completed").toList, Json.mkObj
            [(("total_events_updated").toList, Json.int upd),
             (("escalations_created").toList, Json.int esc),
             (("escalation_ids").toList, Json.mkArr ids)])],
         Call.invokeModel :: (([Json.mkObj [(("campaign_id").toList, Json.str (("c1").toList)),
              (affectedK, Json.mkArr [Json.int 1]), (sevKey, Json.int 3)]] : List Json).flatMap
           campaignCalls)) ∧
      ∀ c ∈ [Json.mkObj [(("campaign_id").toList, Json.str (("c1").toList)),
              (affectedK, Json.mkArr [Json.int 1]), (sevKey, Json.int 3)]],
        campaignCalls c =
        [Call.bulkUpdate (cGet c affectedK (Json.mkArr [])) (cGet c sevKey (Json.int 4))
           (cGet c secAnKey (Json.str [])) (cGet c recActKey (Json.str []))
           (("investigating").toList),
         Call.campaignEscalation (cGet c sevKey (Json.int 4))
           (cGet c affectedK (Json.mkArr []))] := by
  obtain ⟨upd, esc, ids, h1, h2⟩ := monitor_bulk_actions
    (("[\x7b\"id\": 1\x7d]").toList)
    ⟨("\x7b\"campaigns\": [\x7b\"campaign_id\": \"c1\", \"affected_event_ids\": [1], \"severity_rating\": 3\x7d]\x7d").toList,
      true, true, fun _ => true, fun _ => true, fun _ => some 7⟩
    (Json.mkObj [(("id").toList, Json.int 1)]) []
    (JsonO.ofList [(campaignsK, Json.mkArr
      [Json.mkObj [(("campaign_id").toList, Json.str (("c1").toList)),
        (affectedK, Json.mkArr [Json.int 1]), (sevKey, Json.int 3)]])])
    [Json.mkObj [(("campaign_id").toList, Json.str (("c1").toList)),
        (affectedK, Json.mkArr [Json.int 1]), (sevKey, Json.int 3)]]
    rfl rfl rfl rfl
    (by intro c hm; rw [List.mem_singleton.mp hm]; rfl)
  exact ⟨upd, esc, ids, h1, h2⟩

/-- C3 counterexample: a candidate campaign with an empty
`affected_event_ids` list is not discarded: the monitor workflow still
issues a bulk update call with the empty id list and a campaign escalation
call for it. -/
theorem monitor_empty_campaign_counterexample :
    (handle_monitor_workflow (("[\x7b\"id\": 1\x7d]").toList)
      ⟨("\x7b\"campaigns\": [\x7b\"campaign_id\": \"c1\", \"affected_event_ids\": [], \"severity_rating\": 5\x7d]\x7d").toList,
        true, true, fun _ => true, fun _ => true, fun _ => some 7⟩).2 =
      [Call.invokeModel,
       Call.bulkUpdate (Json.mkArr []) (Json.int 5) (Json.str [])
         (Json.str []) (("investigating").toList),
       Call.campaignEscalation (Json.int 5) (Json.mkArr [])] :=
  rfl

/-- C3 (amended): a candidate campaign whose affected-event-id list is empty
is not discarded: the monitor workflow still issues for it one bulk update
call carrying the empty id list and one campaign escalation call carrying
the empty id list. -/
theorem monitor_empty_campaign_not_discarded (eventsJson : List Char) (env : Env)
    (e0 : Json) (evs : List Json) (kvs ckvs : JsonO)
    (hload : pyLoads eventsJson = .ok (Json.mkArr (e0 :: evs)))
    (herr : JsonA.anyStrEq (JsonA.ofList (e0 :: evs)) errKey = false)
    (hmd : parse_json_response env.modelResponse = Json.obj kvs)
    (hcamp : jsonLookup kvs campaignsK = some (Json.mkArr [Json.obj ckvs]))
    (haff : jsonLookup ckvs affectedK = some (Json.mkArr [])) :
    ∃ upd esc ids,
      handle_monitor_workflow eventsJson env =
        (Json.mkObj [(statusK, .str (("success").toList)),
          (workflowK, .str (("monitor").toList)),
          (("campaigns_detected").toList, Json.mkArr [Json.obj ckvs]),
          (("backend_actions_completed").toList, Json.mkObj
            [(("total_events_updated").toList, Json.int upd),
             (("escalations_created").toList, Json.int esc),
             (("escalation_ids").toList, Json.mkArr ids)])],
         [Call.invokeModel,
          Call.bulkUpdate (Json.mkArr []) (cGet (Json.obj ckvs) sevKey (Json.int 4))
            (cGet (Json.obj ckvs) secAnKey (Json.str []))
            (cGet (Json.obj ckvs) recActKey (Json.str []))
            (("investigating").toList),
          Call.campaignEscalation (cGet (Json.obj ckvs) sevKey (Json.int 4))
            (Json.mkArr [])]) := by
  have hwt : ∀ c ∈ [Json.obj ckvs], wtCampaign c = true := by
    intro c hm
    rw [List.mem_singleton.mp hm]
    simp [wtCampaign, haff, Json.mkArr]
  obtain ⟨upd, esc, ids, h⟩ :=
    monitor_trace eventsJson env e0 evs kvs [Json.obj ckvs] hload herr hmd hcamp hwt
  refine ⟨upd, esc, ids, ?_⟩
  rw [h]
  simp only [List.flatMap_cons, List.flatMap_nil, List.append_nil, campaignCalls, cGet,
    haff, Option.getD_some, List.cons_append, List.nil_append, List.singleton_append]

/-- Witness for the amended C3: one open event and one empty-id campaign of
severity 5; both backend calls are still issued with the empty id list. -/
theorem monitor_empty_campaign_not_discarded_witness :
    ∃ upd esc ids,
      handle_monitor_workflow (("[\x7b\"id\": 1\x7d]").toList)
        ⟨("\x7b\"campaigns\": [\x7b\"campaign_id\": \"c1\", \"affected_event_ids\": [], \"severity_rating\": 5\x7d]\x7d").toList,
          true, true, fun _ => true, fun _ => true, fun _ => some 7⟩ =
        (Json.mkObj [(statusK, .str (("success").toList)),
          (workflowK, .str (("monitor").toList)),
          (("campaigns_detected").toList, Json.mkArr
            [Json.obj (JsonO.ofList [(("campaign_id").toList, Json.str (("c1").toList)),
              (affectedK, Json.mkArr []), (sevKey, Json.int 5)])]),
          (("backend_actions_completed").toList, Json.mkObj
            [(("total_events_updated").toList, Json.int upd),
             (("escalations_created").toList, Json.int esc),
             (("escalation_ids").toList, Json.mkArr ids)])],
         [Call.invokeModel,
          Call.bulkUpdate (Json.mkArr [])
            (cGet (Json.obj (JsonO.ofList [(("campaign_id").toList, Json.str (("c1").toList)),
              (affectedK, Json.mkArr []), (sevKey, Json.int 5)])) sevKey (Json.int 4))
            (cGet (Json.obj (JsonO.ofList [(("campaign_id").toList, Json.str (("c1").toList)),
              (affectedK, Json.mkArr []), (sevKey, Json.int 5)])) secAnKey (Json.str []))
            (cGet (Json.obj (JsonO.ofList [(("campaign_id").toList, Json.str (("c1").toList)),
              (affectedK, Json.mkArr []), (sevKey, Json.int 5)])) recActKey (Json.str []))
            (("investigating").toList),
          Call.campaignEscalation
            (cGet (Json.obj (JsonO.ofList [(("campaign_id").toList, Json.str (("c1").toList)),
              (affectedK, Json.mkArr []), (sevKey, Json.int 5)])) sevKey (Json.int 4))
            (Json.mkArr [])]) :=
  monitor_empty_campaign_not_discarded (("[\x7b\"id\": 1\x7d]").toList)
    ⟨("\x7b\"campaigns\": [\x7b\"campaign_id\": \"c1\", \"affected_event_ids\": [], \"severity_rating\": 5\x7d]\x7d").toList,
      true, true, fun _ => true, fun _ => true, fun _ => some 7⟩
    (Json.mkObj [(("id").toList, Json.int 1)]) []
    (JsonO.ofList [(campaignsK, Json.mkArr
      [Json.obj (JsonO.ofList [(("campaign_id").toList, Json.str (("c1").toList)),
        (affectedK, Json.mkArr []), (sevKey, Json.int 5)])])])
    (JsonO.ofList [(("campaign_id").toList, Json.str (("c1").toList)),
      (affectedK, Json.mkArr []), (sevKey, Json.int 5)])
    rfl rfl rfl rfl rfl

/-- Every non-raising outcome of the validation step is either a tagged error
object or the analysis itself, the latter only when it satisfies all the
validated invariants. -/
theorem extractValidate_cases (raw : List Char) (o j : Json)
    (h : extractValidate raw o = .ok j) :
    isTaggedErr j = true ∨ (j = o ∧ validAnalysisB o = true) := by
  unfold extractValidate at h
  cases h1 : pyIn sevKey o with
  | error e =>
    simp only [h1] at h
    exact Except.noConfusion h
  | ok b1 =>
    cases b1 with
    | false =>
      simp only [h1, Except.ok.injEq] at h
      subst h
      exact Or.inl rfl
    | true =>
      cases h2 : pyIn secAnKey o with
      | error e =>
        simp only [h1, h2] at h
        exact Except.noConfusion h
      | ok b2 =>
        cases b2 with
        | false =>
          simp only [h1, h2, Except.ok.injEq] at h
          subst h
          exact Or.inl rfl
        | true =>
          cases h3 : pyIn recActKey o with
          | error e =>
            simp only [h1, h2, h3] at h
            exact Except.noConfusion h
          | ok b3 =>
            cases b3 with
            | false =>
              simp only [h1, h2, h3, Except.ok.injEq] at h
              subst h
              exact Or.inl rfl
            | true =>
              cases hv : pyGetItem o sevKey with
              | error e =>
                simp only [h1, h2, h3, hv] at h
                exact Except.noConfusion h
              | ok v =>
                cases hint : isIntLike v with
                | false =>
                  simp only [h1, h2, h3, hv, hint, Bool.not_false, if_true,
                    Except.ok.injEq] at h
                  subst h
                  exact Or.inl rfl
                | true =>
                  cases hn : asIntE v with
                  | error e =>
                    simp only [h1, h2, h3, hv, hint, Bool.not_true,
                      Bool.false_eq_true, if_false, hn] at h
                    exact Except.noConfusion h
                  | ok n =>
                    by_cases hr : (n < 0 ∨ n > 5)
                    · simp only [h1, h2, h3, hv, hint, Bool.not_true,
                        Bool.false_eq_true, if_false, hn, if_pos hr,
                        Except.ok.injEq] at h
                      subst h
                      exact Or.inl rfl
                    · simp only [h1, h2, h3, hv, hint, Bool.not_true,
                        Bool.false_eq_true, if_false, hn, if_neg hr,
                        Except.ok.injEq] at h
                      subst h
                      refine Or.inr ⟨rfl, ?_⟩
                      unfold validAnalysisB
                      rw [h1, h2, h3, hv]
                      cases v with
                      | int m =>
                        have hm : n = m := by
                          simp only [asIntE, Except.ok.injEq] at hn
                          omega
                        subst hm
                        simp only [sevValid, Bool.and_eq_true, decide_eq_true_eq]
                        omega
                      | bool b => rfl
                      | null => simp [isIntLike] at hint
                      | str s => simp [isIntLike] at hint
                      | arr a => simp [isIntLike] at hint
                      | obj kv => simp [isIntLike] at hint

/-- C7: extraction is total and never lets a fault escape: on every agent
message, `extract_json_from_response` returns either a tagged error object
or an analysis value satisfying all validated invariants (required fields
present, severity an int-like value in [0,5]); and on every input string,
`parse_json_response` returns either the parsed value of its non-raising
body or the empty dict that its exception handler substitutes for any
failure — in both routines every failure path is a returned value, not an
exception. -/
theorem extraction_total_no_uncaught_fault :
    (∀ msg : Json, isTaggedErr (extract_json_from_response msg) = true ∨
      validAnalysisB (extract_json_from_response msg) = true) ∧
    (∀ t : List Char, parse_json_response t = Json.mkObj [] ∨
      ∃ j, parse_json_response_body t = .ok j ∧ parse_json_response t = j) := by
  constructor
  · intro msg
    unfold extract_json_from_response
    cases hps : extractParseStage msg with
    | error e =>
      simp only [hps]
      exact Or.inl rfl
    | ok ra =>
      obtain ⟨raw, o⟩ := ra
      cases hval : extractValidate raw o with
      | error e =>
        simp only [hps, hval]
        exact Or.inl rfl
      | ok j =>
        simp only [hps, hval]
        rcases extractValidate_cases raw o j hval with htag | ⟨hj, hvb⟩
        · exact Or.inl htag
        · rw [hj]
          exact Or.inr hvb
  · intro t
    unfold parse_json_response
    cases hb : parse_json_response_body t with
    | error e => exact Or.inl rfl
    | ok j => exact Or.inr ⟨j, rfl, rfl⟩

/-- A list is a `isPrefixOf` of itself followed by anything. -/
theorem isPrefixOf_append_self (sep rest : List Char) :
    sep.isPrefixOf (sep ++ rest) = true :=
  List.isPrefixOf_iff_prefix.mpr (List.prefix_append sep rest)

/-- A prefix of a prefix is a prefix. -/
theorem isPrefixOf_of_append (s t l : List Char) (h : (s ++ t).isPrefixOf l = true) :
    s.isPrefixOf l = true :=
  List.isPrefixOf_iff_prefix.mpr
    (List.IsPrefix.trans (List.prefix_append s t) (List.isPrefixOf_iff_prefix.mp h))

/-- Characters under an `isPrefixOf` agree position by position. -/
theorem getElem?_of_isPrefixOf {sep l : List Char} (h : sep.isPrefixOf l = true)
    (i : Nat) (hi : i < sep.length) : l[i]? = sep[i]? := by
  obtain ⟨t, rfl⟩ := List.isPrefixOf_iff_prefix.mp h
  exact List.getElem?_append_left hi

/-- If no position of `t` starts an occurrence of `sep`, the splitter finds
none. -/
theorem firstSplitAux_none (sep : List Char) :
    ∀ t : List Char, (∀ k, sep.isPrefixOf (t.drop k) = false) →
      firstSplitAux sep t = none := by
  intro t
  induction t with
  | nil => intro _; rfl
  | cons c rest ih =>
    intro h
    unfold firstSplitAux
    have h0 := h 0
    rw [List.drop_zero] at h0
    rw [h0]
    simp only [Bool.false_eq_true, if_false]
    rw [ih (fun k => by
      have := h (k + 1)
      rwa [List.drop_succ_cons] at this)]

/-- If `sep` occurs right after a clean prefix `B`, the splitter cuts exactly
there. -/
theorem firstSplitAux_clean (sep : List Char) (hsep : sep ≠ []) :
    ∀ B C : List Char,
      (∀ k, k < B.length → sep.isPrefixOf ((B ++ (sep ++ C)).drop k) = false) →
      firstSplitAux sep (B ++ (sep ++ C)) = some (B, C) := by
  intro B
  induction B with
  | nil =>
    intro C _
    simp only [List.nil_append]
    cases hs : sep ++ C with
    | nil => cases hsep (List.append_eq_nil.mp hs).1
    | cons c rest =>
      unfold firstSplitAux
      rw [← hs, isPrefixOf_append_self]
      simp only [if_true]
      rw [List.drop_left]
  | cons b B' ih =>
    intro C h
    have h0 := h 0 (by simp)
    simp only [List.cons_append, List.drop_succ_cons, List.drop_zero] at h0 ⊢
    unfold firstSplitAux
    rw [h0]
    simp only [Bool.false_eq_true, if_false]
    rw [ih C (fun k hk => by
      have := h (k + 1) (by simpa using Nat.succ_lt_succ hk)
      simpa using this)]

/-- When the separator does not occur, splitting returns the whole string for
any amount of fuel. -/
theorem pySplitAux_single (sep t : List Char) (h : firstSplitAux sep t = none)
    (fuel : Nat) : pySplitAux sep fuel t = [t] := by
  cases fuel with
  | zero => rfl
  | succ f =>
    unfold pySplitAux
    rw [h]

/-- The fence marker is three backticks. -/
theorem fenceSep_eq : fenceSep = [btChar, btChar, btChar] := rfl

/-- Build a three-element prefix from pointwise characters. -/
theorem isPrefixOf_three {l : List Char} {a b c : Char}
    (h0 : l[0]? = some a) (h1 : l[1]? = some b) (h2 : l[2]? = some c) :
    ([a, b, c]).isPrefixOf l = true := by
  cases l with
  | nil => cases h0
  | cons x l1 =>
    cases l1 with
    | nil => cases h1
    | cons y l2 =>
      cases l2 with
      | nil => cases h2
      | cons z l3 =>
        simp only [List.getElem?_cons_zero, Option.some.injEq] at h0
        simp only [List.getElem?_cons_succ, List.getElem?_cons_zero,
          Option.some.injEq] at h1 h2
        subst h0; subst h1; subst h2
        simp [List.isPrefixOf]

/-- A triple backtick at pointwise positions yields a fence occurrence. -/
theorem containsSub_fence_of_getElem {t : List Char} {i : Nat}
    (h0 : t[i]? = some btChar) (h1 : t[i + 1]? = some btChar)
    (h2 : t[i + 2]? = some btChar) : containsSub fenceSep t = true := by
  induction t generalizing i with
  | nil => cases h0
  | cons c rest ih =>
    cases i with
    | zero =>
      unfold containsSub
      rw [fenceSep_eq]
      rw [isPrefixOf_three h0 h1 h2]
      rfl
    | succ k =>
      unfold containsSub
      rw [@ih k (by simpa using h0) (by simpa using h1) (by simpa using h2)]
      simp

/-- Conversely, a fence occurrence gives three pointwise backticks. -/
theorem getElem_of_fence_prefix {t : List Char} {k : Nat}
    (h : fenceSep.isPrefixOf (t.drop k) = true) :
    t[k]? = some btChar ∧ t[k + 1]? = some btChar ∧ t[k + 2]? = some btChar := by
  have g0 := getElem?_of_isPrefixOf h 0 (by rw [fenceSep_eq]; decide)
  have g1 := getElem?_of_isPrefixOf h 1 (by rw [fenceSep_eq]; decide)
  have g2 := getElem?_of_isPrefixOf h 2 (by rw [fenceSep_eq]; decide)
  rw [List.getElem?_drop] at g0 g1 g2
  rw [fenceSep_eq] at g0 g1 g2
  simp only [List.getElem?_cons_zero, List.getElem?_cons_succ] at g0 g1 g2
  exact ⟨g0, g1, g2⟩

/-- A substring occurrence yields a position where the separator is a prefix
of the remaining suffix. -/
theorem containsSub_true_exists (sep : List Char) :
    ∀ t : List Char, containsSub sep t = true →
      ∃ k, sep.isPrefixOf (t.drop k) = true := by
  intro t
  induction t with
  | nil =>
    intro hcon
    exact ⟨0, by
      unfold containsSub at hcon
      cases sep with
      | nil => rfl
      | cons s ss => cases hcon⟩
  | cons c rest ih =>
    intro hcon
    unfold containsSub at hcon
    cases hp : sep.isPrefixOf (c :: rest) with
    | true => exact ⟨0, by simpa using hp⟩
    | false =>
      rw [hp] at hcon
      simp only [Bool.false_or] at hcon
      obtain ⟨k, hk⟩ := ih hcon
      exact ⟨k + 1, by simpa using hk⟩

/-- A fence occurrence inside a concatenation lies inside one part unless
both boundary characters are backticks. -/
theorem containsSub_fence_append {A B : List Char}
    (hA : containsSub fenceSep A = false) (hB : containsSub fenceSep B = false)
    (hbd : A.getLast? ≠ some btChar ∨ B.head? ≠ some btChar) :
    containsSub fenceSep (A ++ B) = false := by
  by_contra hcon
  rw [Bool.not_eq_false] at hcon
  obtain ⟨k, hk⟩ := containsSub_true_exists fenceSep (A ++ B) hcon
  obtain ⟨g0, g1, g2⟩ := getElem_of_fence_prefix hk
  rcases Nat.lt_or_ge (k + 2) A.length with hin | hout
  · have a0 : A[k]? = some btChar := by
      rw [List.getElem?_append_left (by omega)] at g0; exact g0
    have a1 : A[k + 1]? = some btChar := by
      rw [List.getElem?_append_left (by omega)] at g1; exact g1
    have a2 : A[k + 2]? = some btChar := by
      rw [List.getElem?_append_left (by omega)] at g2; exact g2
    rw [containsSub_fence_of_getElem a0 a1 a2] at hA
    cases hA
  · rcases Nat.lt_or_ge k A.length with hbd' | hall
    · -- the occurrence crosses the boundary
      have hAlen : 0 < A.length := by omega
      have hlast : (A ++ B)[A.length - 1]? = some btChar := by
        have : A.length - 1 = k ∨ A.length - 1 = k + 1 ∨ A.length - 1 = k + 2 := by omega
        rcases this with h | h | h <;> rw [h] <;> assumption
      have hfirst : (A ++ B)[A.length]? = some btChar := by
        have : A.length = k ∨ A.length = k + 1 ∨ A.length = k + 2 := by omega
        rcases this with h | h | h <;> rw [h] <;> assumption
      have hAl : A.getLast? = some btChar := by
        rw [List.getElem?_append_left (by omega)] at hlast
        rw [List.getLast?_eq_getElem?]
        exact hlast
      have hBh : B.head? = some btChar := by
        rw [List.getElem?_append_right (by omega)] at hfirst
        simp only [Nat.sub_self] at hfirst
        cases B with
        | nil => cases hfirst
        | cons b bs => simpa using hfirst
      rcases hbd with h | h
      · exact h hAl
      · exact h hBh
    · have b0 : B[k - A.length]? = some btChar := by
        rw [List.getElem?_append_right (by omega)] at g0; exact g0
      have b1 : B[k - A.length + 1]? = some btChar := by
        rw [List.getElem?_append_right (by omega)] at g1
        have : k + 1 - A.length = k - A.length + 1 := by omega
        rwa [this] at g1
      have b2 : B[k - A.length + 2]? = some btChar := by
        rw [List.getElem?_append_right (by omega)] at g2
        have : k + 2 - A.length = k - A.length + 2 := by omega
        rwa [this] at g2
      rw [containsSub_fence_of_getElem b0 b1 b2] at hB
      cases hB

/-- `dropWhile` is the identity when the head fails the predicate. -/
theorem dropWhile_head?_false {p : Char → Bool} {t : List Char} {c : Char}
    (hh : t.head? = some c) (hp : p c = false) : t.dropWhile p = t := by
  cases t with
  | nil => cases hh
  | cons a as =>
    simp only [List.head?_cons, Option.some.injEq] at hh
    subst hh
    simp [List.dropWhile, hp]

/-- `str.strip` is the identity on a string with non-whitespace ends. -/
theorem pyStrip_eq_self {t : List Char} (c1 c2 : Char)
    (hh : t.head? = some c1) (h1 : isWsChar c1 = false)
    (hl : t.getLast? = some c2) (h2 : isWsChar c2 = false) : pyStrip t = t := by
  unfold pyStrip
  rw [dropWhile_head?_false hh h1]
  rw [dropWhile_head?_false (by rw [List.head?_reverse]; exact hl) h2]
  exact List.reverse_reverse t

/-- Stripping the inner fence content recovers the serialized document. -/
theorem pyStrip_inner {J : List Char}
    (hh : J.head? = some '{') (hl : J.getLast? = some '}') :
    pyStrip ('\n' :: (J ++ ['\n'])) = J := by
  cases J with
  | nil => cases hh
  | cons j js =>
    simp only [List.head?_cons, Option.some.injEq] at hh
    subst hh
    unfold pyStrip
    have hd : List.dropWhile isWsChar ('\n' :: ('{' :: js ++ ['\n'])) =
        '{' :: js ++ ['\n'] := by
      simp [List.dropWhile, isWsChar]
    rw [hd]
    have hrev : (('{' :: js) ++ ['\n']).reverse = '\n' :: ('{' :: js).reverse := by
      simp [List.reverse_append]
    rw [List.cons_append] at hrev ⊢
    rw [hrev]
    have hd2 : List.dropWhile isWsChar ('\n' :: ('{' :: js).reverse) =
        List.dropWhile isWsChar (('{' :: js).reverse) := by
      simp [List.dropWhile, isWsChar]
    rw [hd2]
    rw [dropWhile_head?_false (by rw [List.head?_reverse]; exact hl) (by decide)]
    exact List.reverse_reverse _

/-- The greedy brace regex recovers a document that starts with `\x7b` and
ends with `\x7d`. -/
theorem braceExtract_eq_self {J : List Char}
    (hh : J.head? = some '{') (hl : J.getLast? = some '}') :
    braceExtract J = some J := by
  cases J with
  | nil => cases hh
  | cons j js =>
    simp only [List.head?_cons, Option.some.injEq] at hh
    subst hh
    unfold braceExtract
    have hd : List.dropWhile (fun c => decide (c ≠ '{')) ('{' :: js) = '{' :: js := by
      simp [List.dropWhile]
    have h2 : List.dropWhile (fun c => decide (c ≠ '}')) (('{' :: js).reverse) =
        ('{' :: js).reverse :=
      dropWhile_head?_false (by rw [List.head?_reverse]; exact hl) (by decide)
    simp only [hd, h2, List.reverse_reverse]
    rfl

/-- Index 0 of a Python split whose first separator occurrence is known. -/
theorem pyIdxL_split0 {sep t pre post : List Char}
    (h : firstSplitAux sep t = some (pre, post)) :
    pyIdxL (pySplitL sep t) 0 = .ok pre := by
  unfold pySplitL pySplitAux
  rw [h]
  rfl

/-- Index 1 of a Python split that cuts once at position 0 and never again. -/
theorem pyIdxL_split1 {sep t rest1 : List Char}
    (h0 : firstSplitAux sep t = some ([], rest1))
    (h1 : firstSplitAux sep rest1 = none) :
    pyIdxL (pySplitL sep t) 1 = .ok rest1 := by
  unfold pySplitL pySplitAux
  simp only [h0]
  rw [pySplitAux_single sep rest1 h1]
  rfl

/-- Character positions of the inner fence content that land in the
document. -/
theorem wrapX_getElem_J {J T : List Char} {j : Nat} (h1 : 1 ≤ j)
    (h2 : j ≤ J.length) : ('\n' :: (J ++ T))[j]? = J[j - 1]? := by
  cases j with
  | zero => omega
  | succ j' =>
    rw [List.getElem?_cons_succ]
    rw [List.getElem?_append_left (by omega)]
    rfl

/-- Character positions of the inner fence content that land in the closing
marker. -/
theorem wrapX_getElem_tail {J T : List Char} {j : Nat}
    (h : J.length + 1 ≤ j) : ('\n' :: (J ++ T))[j]? = T[j - J.length - 1]? := by
  cases j with
  | zero => omega
  | succ j' =>
    rw [List.getElem?_cons_succ]
    rw [List.getElem?_append_right (by omega)]
    congr 1
    omega

/-- The JSON-tagged fence marker never occurs in the inner fence content when
the document has no triple backtick. -/
theorem no_fenceJson_occurrence {J : List Char}
    (hJ : containsSub fenceSep J = false) :
    ∀ k, fenceJsonSep.isPrefixOf (('\n' :: (J ++ ('\n' :: fenceSep))).drop k) = false := by
  intro k
  by_contra hcon
  rw [Bool.not_eq_false] at hcon
  have e0 := getElem?_of_isPrefixOf hcon 0 (by decide)
  have e1 := getElem?_of_isPrefixOf hcon 1 (by decide)
  have e2 := getElem?_of_isPrefixOf hcon 2 (by decide)
  have e3 := getElem?_of_isPrefixOf hcon 3 (by decide)
  rw [List.getElem?_drop] at e0 e1 e2 e3
  rw [show fenceJsonSep[0]? = some btChar from by decide] at e0
  rw [show fenceJsonSep[1]? = some btChar from by decide] at e1
  rw [show fenceJsonSep[2]? = some btChar from by decide] at e2
  rw [show fenceJsonSep[3]? = some 'j' from by decide] at e3
  rcases Nat.eq_zero_or_pos k with rfl | hk
  · rw [show (0 : Nat) + 0 = 0 from rfl] at e0
    rw [List.getElem?_cons_zero] at e0
    exact absurd e0 (by decide)
  · rcases Nat.lt_or_ge (k + 3) (J.length + 1) with hin | hout
    · -- the three backticks lie inside J
      rw [wrapX_getElem_J (by omega) (by omega)] at e0
      rw [wrapX_getElem_J (by omega) (by omega)] at e1
      rw [wrapX_getElem_J (by omega) (by omega)] at e2
      have b0 : J[k - 1]? = some btChar := by
        rw [show k - 1 = k + 0 - 1 from by omega]; exact e0
      have b1 : J[k - 1 + 1]? = some btChar := by
        rw [show k - 1 + 1 = k + 1 - 1 from by omega]; exact e1
      have b2 : J[k - 1 + 2]? = some btChar := by
        rw [show k - 1 + 2 = k + 2 - 1 from by omega]; exact e2
      rw [containsSub_fence_of_getElem b0 b1 b2] at hJ
      cases hJ
    · -- the 'j' of the marker would have to sit in or past the closing fence
      rw [wrapX_getElem_tail (by omega)] at e3
      have hm : k + 3 - J.length - 1 = 0 ∨ k + 3 - J.length - 1 = 1 ∨
          k + 3 - J.length - 1 = 2 ∨ k + 3 - J.length - 1 = 3 ∨
          4 ≤ k + 3 - J.length - 1 := by omega
      rcases hm with h | h | h | h | h
      · rw [h] at e3; exact absurd e3 (by decide)
      · rw [h] at e3; exact absurd e3 (by decide)
      · rw [h] at e3; exact absurd e3 (by decide)
      · rw [h] at e3; exact absurd e3 (by decide)
      · rw [List.getElem?_eq_none (by simpa using h)] at e3
        cases e3

/-- Before the closing marker, no fence marker occurs in the inner fence
content. -/
theorem no_fence_before_close {J : List Char}
    (hJ : containsSub fenceSep J = false) :
    ∀ k, k < J.length + 2 →
      fenceSep.isPrefixOf (('\n' :: (J ++ ('\n' :: fenceSep))).drop k) = false := by
  intro k hklt
  by_contra hcon
  rw [Bool.not_eq_false] at hcon
  have e0 := getElem?_of_isPrefixOf hcon 0 (by decide)
  have e1 := getElem?_of_isPrefixOf hcon 1 (by decide)
  have e2 := getElem?_of_isPrefixOf hcon 2 (by decide)
  rw [List.getElem?_drop] at e0 e1 e2
  rw [show fenceSep[0]? = some btChar from by decide] at e0
  rw [show fenceSep[1]? = some btChar from by decide] at e1
  rw [show fenceSep[2]? = some btChar from by decide] at e2
  rcases Nat.eq_zero_or_pos k with rfl | hk
  · rw [show (0 : Nat) + 0 = 0 from rfl] at e0
    rw [List.getElem?_cons_zero] at e0
    exact absurd e0 (by decide)
  · rcases Nat.lt_or_ge (k + 2) (J.length + 1) with hin | hout
    · rw [wrapX_getElem_J (by omega) (by omega)] at e0
      rw [wrapX_getElem_J (by omega) (by omega)] at e1
      rw [wrapX_getElem_J (by omega) (by omega)] at e2
      have b0 : J[k - 1]? = some btChar := by
        rw [show k - 1 = k + 0 - 1 from by omega]; exact e0
      have b1 : J[k - 1 + 1]? = some btChar := by
        rw [show k - 1 + 1 = k + 1 - 1 from by omega]; exact e1
      have b2 : J[k - 1 + 2]? = some btChar := by
        rw [show k - 1 + 2 = k + 2 - 1 from by omega]; exact e2
      rw [containsSub_fence_of_getElem b0 b1 b2] at hJ
      cases hJ
    · -- one of the three backticks would be the newline before the closing fence
      have hnl : k + 2 = J.length + 1 ∨ k + 1 = J.length + 1 ∨ k = J.length + 1 := by
        omega
      rcases hnl with h | h | h
      · rw [h] at e2
        rw [wrapX_getElem_tail (by omega)] at e2
        rw [show J.length + 1 - J.length - 1 = 0 from by omega] at e2
        exact absurd e2 (by decide)
      · rw [h] at e1
        rw [wrapX_getElem_tail (by omega)] at e1
        rw [show J.length + 1 - J.length - 1 = 0 from by omega] at e1
        exact absurd e1 (by decide)
      · rw [h] at e0
        rw [wrapX_getElem_tail (by omega)] at e0
        rw [show J.length + 1 - J.length - 1 = 0 from by omega] at e0
        exact absurd e0 (by decide)

/-- A prefix occurrence is in particular a substring occurrence. -/
theorem containsSub_of_isPrefixOf {sep t : List Char}
    (h : sep.isPrefixOf t = true) : containsSub sep t = true := by
  cases t with
  | nil =>
    unfold containsSub
    cases sep with
    | nil => rfl
    | cons s ss => cases h
  | cons c rest =>
    unfold containsSub
    rw [h]
    rfl

/-- The fenced wrapper decomposes after the JSON-tagged marker. -/
theorem wrapFence_decomp (J : List Char) :
    wrapFence J = fenceJsonSep ++ ('\n' :: (J ++ ('\n' :: fenceSep))) := rfl

/-- First split of the wrapper on the JSON-tagged marker. -/
theorem firstSplitAux_wrap (J : List Char) :
    firstSplitAux fenceJsonSep (wrapFence J) =
      some ([], '\n' :: (J ++ ('\n' :: fenceSep))) := by
  rw [wrapFence_decomp]
  have := firstSplitAux_clean fenceJsonSep (by decide) []
    ('\n' :: (J ++ ('\n' :: fenceSep))) (fun k hk => by simp at hk)
  simpa using this

/-- First split of the inner fence content on the fence marker. -/
theorem firstSplitAux_inner {J : List Char}
    (hJ : containsSub fenceSep J = false) :
    firstSplitAux fenceSep ('\n' :: (J ++ ('\n' :: fenceSep))) =
      some ('\n' :: (J ++ ['\n']), []) := by
  have hX : '\n' :: (J ++ ('\n' :: fenceSep)) =
      ('\n' :: (J ++ ['\n'])) ++ (fenceSep ++ []) := by
    simp [List.append_assoc]
  rw [hX]
  refine firstSplitAux_clean fenceSep (by decide) ('\n' :: (J ++ ['\n'])) [] ?_
  intro k hk
  rw [← hX]
  refine no_fence_before_close hJ k ?_
  simp only [List.length_cons, List.length_append, List.length_singleton,
    List.length_nil] at hk
  omega

/-- The wrapper's last character is a backtick. -/
theorem wrapFence_getLast (J : List Char) :
    (wrapFence J).getLast? = some btChar := by
  unfold wrapFence
  rw [List.getLast?_append_of_ne_nil _ (by
    intro h
    cases List.append_eq_nil.mp h |>.2)]
  rw [List.getLast?_append_of_ne_nil _ (by decide)]
  rfl

/-- The fence-removal step of `parse_json_response` recovers the document
from its fenced wrapper. -/
theorem parse_defence_of_wrap {J : List Char}
    (hJ : containsSub fenceSep J = false)
    (hh : J.head? = some '{') (hl : J.getLast? = some '}') :
    parse_json_response_defence (wrapFence J) = .ok J := by
  have hstrip0 : pyStrip (wrapFence J) = wrapFence J :=
    pyStrip_eq_self btChar btChar rfl (by decide)
      (wrapFence_getLast J) (by decide)
  have hct : containsSub fenceJsonSep (wrapFence J) = true := by
    rw [wrapFence_decomp]
    exact containsSub_of_isPrefixOf (isPrefixOf_append_self _ _)
  have hp1 : pyIdxL (pySplitL fenceJsonSep (wrapFence J)) 1 =
      .ok ('\n' :: (J ++ ('\n' :: fenceSep))) :=
    pyIdxL_split1 (firstSplitAux_wrap J)
      (firstSplitAux_none _ _ (no_fenceJson_occurrence hJ))
  have hp0 : pyIdxL (pySplitL fenceSep ('\n' :: (J ++ ('\n' :: fenceSep)))) 0 =
      .ok ('\n' :: (J ++ ['\n'])) :=
    pyIdxL_split0 (firstSplitAux_inner hJ)
  unfold parse_json_response_defence
  simp only [hstrip0, hct, if_true, hp1, hp0]
  rw [pyStrip_inner hh hl]

/-- The fence-removal step of `extract_json_from_response` recovers the
document from its fenced wrapper. -/
theorem extract_defence_of_wrap {J : List Char}
    (hJ : containsSub fenceSep J = false)
    (hh : J.head? = some '{') (hl : J.getLast? = some '}') :
    extractDefence (Json.str (wrapFence J)) = .ok (Json.str J) := by
  have hct : containsSub fenceJsonSep (wrapFence J) = true := by
    rw [wrapFence_decomp]
    exact containsSub_of_isPrefixOf (isPrefixOf_append_self _ _)
  have hp1 : pyIdxL (pySplitL fenceJsonSep (wrapFence J)) 1 =
      .ok ('\n' :: (J ++ ('\n' :: fenceSep))) :=
    pyIdxL_split1 (firstSplitAux_wrap J)
      (firstSplitAux_none _ _ (no_fenceJson_occurrence hJ))
  have hp0 : pyIdxL (pySplitL fenceSep ('\n' :: (J ++ ('\n' :: fenceSep)))) 0 =
      .ok ('\n' :: (J ++ ['\n'])) :=
    pyIdxL_split0 (firstSplitAux_inner hJ)
  unfold extractDefence
  simp only [pyIn, hct, asStrSplit, hp1, hp0]
  rw [pyStrip_inner hh hl]

/-- Decoding inverts the hex-digit encoding. -/
theorem hexVal_hexDig : ∀ n : Nat, n < 16 → hexVal (hexDig n) = some n := by decide

/-- One named-escape step of the string parser. -/
theorem parseStrBody_escLetter_step (e ec : Char) (hu : e ≠ 'u')
    (he : escCharVal e = some ec) (t : List Char) :
    parseStrBody (Char.ofNat 92 :: e :: t) =
      match parseStrBody t with
      | some (s1, r1) => some (ec :: s1, r1)
      | none => none := by
  conv_lhs => unfold parseStrBody
  rw [if_neg (by decide), if_pos rfl]
  dsimp only
  rw [if_neg hu, he]

/-- One `\u`-escape step of the string parser. -/
theorem parseStrBody_u_step (h1 h2 h3 h4 : Char) (a b x y : Nat) (t : List Char)
    (e1 : hexVal h1 = some a) (e2 : hexVal h2 = some b)
    (e3 : hexVal h3 = some x) (e4 : hexVal h4 = some y) :
    parseStrBody (Char.ofNat 92 :: 'u' :: h1 :: h2 :: h3 :: h4 :: t) =
      match parseStrBody t with
      | some (s1, r1) => some (Char.ofNat (((a * 16 + b) * 16 + x) * 16 + y) :: s1, r1)
      | none => none := by
  conv_lhs => unfold parseStrBody
  rw [if_neg (by decide), if_pos rfl]
  dsimp only
  rw [if_pos rfl, e1, e2, e3, e4]

/-- One literal-character step of the string parser. -/
theorem parseStrBody_lit_step {c : Char} (hq : c ≠ Char.ofNat 34)
    (hb : c ≠ Char.ofNat 92) (t : List Char) :
    parseStrBody (c :: t) =
      match parseStrBody t with
      | some (s1, r1) => some (c :: s1, r1)
      | none => none := by
  conv_lhs => unfold parseStrBody
  rw [if_neg hq, if_neg hb]

/-- Parsing inverts JSON string escaping: the string body parser consumes the
escaped text up to the closing quote and recovers the original characters. -/
theorem parseStrBody_escape (s : List Char) :
    ∀ r, parseStrBody (escapeStr s ++ (Char.ofNat 34 :: r)) = some (s, r) := by
  induction s with
  | nil =>
    intro r
    show parseStrBody (Char.ofNat 34 :: r) = some ([], r)
    conv_lhs => unfold parseStrBody
    rw [if_pos rfl]
  | cons c cs ih =>
    intro r
    show parseStrBody ((escapeChar c ++ escapeStr cs) ++ (Char.ofNat 34 :: r)) = _
    rw [List.append_assoc]
    unfold escapeChar
    split_ifs with h1 h2 h3 h4 h5 h6 h7 h8
    · simp only [List.cons_append, List.nil_append]
      rw [parseStrBody_escLetter_step (Char.ofNat 34) (Char.ofNat 34)
        (by decide) (by decide), ih r, h1]
    · simp only [List.cons_append, List.nil_append]
      rw [parseStrBody_escLetter_step (Char.ofNat 92) (Char.ofNat 92)
        (by decide) (by decide), ih r, h2]
    · simp only [List.cons_append, List.nil_append]
      rw [parseStrBody_escLetter_step ('b') (Char.ofNat 8)
        (by decide) (by decide), ih r, h3]
    · simp only [List.cons_append, List.nil_append]
      rw [parseStrBody_escLetter_step ('f') (Char.ofNat 12)
        (by decide) (by decide), ih r, h4]
    · simp only [List.cons_append, List.nil_append]
      rw [parseStrBody_escLetter_step ('n') ('\n')
        (by decide) (by decide), ih r, h5]
    · simp only [List.cons_append, List.nil_append]
      rw [parseStrBody_escLetter_step ('r') (Char.ofNat 13)
        (by decide) (by decide), ih r, h6]
    · simp only [List.cons_append, List.nil_append]
      rw [parseStrBody_escLetter_step ('t') (Char.ofNat 9)
        (by decide) (by decide), ih r, h7]
    · simp only [List.cons_append, List.nil_append]
      rw [parseStrBody_u_step ('0') ('0') (hexDig (c.toNat / 16))
        (hexDig (c.toNat % 16)) 0 0 (c.toNat / 16) (c.toNat % 16) _
        (by decide) (by decide)
        (hexVal_hexDig _ (by omega)) (hexVal_hexDig _ (by omega))]
      rw [ih r]
      have hval : ((0 * 16 + 0) * 16 + c.toNat / 16) * 16 + c.toNat % 16 = c.toNat := by
        omega
      rw [hval, Char.ofNat_toNat]
    · simp only [List.cons_append, List.nil_append]
      rw [parseStrBody_lit_step h1 h2, ih r]

/-- The string parser consumes a quote- and backslash-free literal key. -/
theorem parseStrBody_clean (k : List Char)
    (hk : ∀ c ∈ k, c ≠ Char.ofNat 34 ∧ c ≠ Char.ofNat 92) :
    ∀ r, parseStrBody (k ++ (Char.ofNat 34 :: r)) = some (k, r) := by
  induction k with
  | nil =>
    intro r
    show parseStrBody (Char.ofNat 34 :: r) = some ([], r)
    conv_lhs => unfold parseStrBody
    rw [if_pos rfl]
  | cons c cs ih =>
    intro r
    have hc := hk c (List.mem_cons_self c cs)
    rw [List.cons_append, parseStrBody_lit_step hc.1 hc.2,
      ih (fun x hx => hk x (List.mem_cons_of_mem c hx)) r]

theorem skipWs_not (c : Char) (h : isWsChar c = false) (t : List Char) :
    skipWs (c :: t) = c :: t := by
  simp [skipWs, h]

theorem skipWs_ws (c : Char) (h : isWsChar c = true) (t : List Char) :
    skipWs (c :: t) = skipWs t := by
  simp [skipWs, h]

/-- The value parser on an escaped string literal. -/
theorem parseVal_str (f : Nat) (t s r : List Char)
    (hsk : skipWs t = Char.ofNat 34 :: (escapeStr s ++ (Char.ofNat 34 :: r))) :
    parseVal (f + 1) t = some (Json.str s, r) := by
  conv_lhs => unfold parseVal
  rw [hsk]
  dsimp only
  rw [if_neg (by decide), if_neg (by decide), if_pos rfl, parseStrBody_escape]

/-- The number parser on a single digit followed by a comma. -/
theorem parseNat_digit (d : Char) (hd : d.isDigit = true) (r : List Char) :
    parseNat (d :: ',' :: r) = some (d.toNat - 48, ',' :: r) := by
  have hcomma : (',' : Char).isDigit = false := by decide
  have htw : List.takeWhile (fun c => c.isDigit) (d :: ',' :: r) = [d] := by
    simp only [List.takeWhile_cons, hd, hcomma]
    rfl
  have hdw : List.dropWhile (fun c => c.isDigit) (d :: ',' :: r) = ',' :: r := by
    simp only [List.dropWhile_cons, hd, hcomma]
    rfl
  conv_lhs => unfold parseNat
  rw [htw, hdw]
  dsimp only
  have hdig2 : digitsToNat 0 [d] = d.toNat - 48 := by
    show 0 * 10 + (d.toNat - 48) = d.toNat - 48
    omega
  rw [hdig2]

/-- The value parser on a single decimal digit followed by a comma. -/
theorem parseVal_digit (f : Nat) (d : Char) (t r : List Char)
    (hd : '0' ≤ d ∧ d ≤ '9')
    (hsk : skipWs t = d :: ',' :: r) :
    parseVal (f + 1) t = some (Json.int ((d.toNat - 48 : Nat) : Int), ',' :: r) := by
  have hdig : d.isDigit = true := by
    simp only [Char.isDigit]
    obtain ⟨hl, hr⟩ := hd
    rw [decide_eq_true (by exact hl), decide_eq_true (by exact hr)]
    rfl
  conv_lhs => unfold parseVal
  rw [hsk]
  dsimp only
  rw [if_neg (by rintro rfl; exact absurd hd (by decide)),
    if_neg (by rintro rfl; exact absurd hd (by decide)),
    if_neg (by rintro rfl; exact absurd hd (by decide)),
    if_neg (by rintro rfl; exact absurd hd (by decide)),
    if_neg (by rintro rfl; exact absurd hd (by decide)),
    if_neg (by rintro rfl; exact absurd hd (by decide)),
    if_neg (by rintro rfl; exact absurd hd (by decide)),
    if_pos hdig, parseNat_digit d hdig r]

/-- The object-member parser consumes one clean-keyed member. -/
theorem parseMembers_member (f : Nat) (t k : List Char)
    (hk : ∀ c ∈ k, c ≠ Char.ofNat 34 ∧ c ≠ Char.ofNat 92)
    (v : Json) (r2 r3 : List Char) (acc : JsonO)
    (hsk : skipWs t = Char.ofNat 34 :: (k ++ (Char.ofNat 34 :: ':' :: ' ' :: r2)))
    (hv : parseVal f (' ' :: r2) = some (v, r3)) :
    parseMembers (f + 1) t acc =
      match skipWs r3 with
      | ',' :: r4 => parseMembers f r4 (insertKV acc k v)
      | '\x7d' :: r4 => some (Json.obj (insertKV acc k v), r4)
      | _ => none := by
  conv_lhs => unfold parseMembers
  rw [hsk]
  dsimp only
  rw [if_pos rfl, parseStrBody_clean k hk]
  dsimp only
  rw [skipWs_not ':' (by decide)]
  simp only [hv]

/-- A decimal digit is not JSON whitespace. -/
theorem isWsChar_digit (d : Char) (hd : '0' ≤ d ∧ d ≤ '9') : isWsChar d = false := by
  cases hb : isWsChar d
  · rfl
  · exfalso
    simp only [isWsChar, Bool.or_eq_true, decide_eq_true_eq] at hb
    rcases hb with ((rfl | rfl) | rfl) | rfl <;> exact absurd hd (by decide)

/-- The serialized analysis record, in parser-ready cons form. -/
theorem dump_shape (n : Int) (s1 s2 : List Char) (d : Char)
    (hds : (toString n).toList = [d]) :
    Analysis.dump ⟨n, s1, s2⟩ =
      '\x7b' :: Char.ofNat 34 :: (sevKey ++ (Char.ofNat 34 :: ':' :: ' ' ::
        d :: ',' :: (' ' :: Char.ofNat 34 :: (secAnKey ++ (Char.ofNat 34 :: ':' :: ' ' :: Char.ofNat 34 ::
          (escapeStr s1 ++ (Char.ofNat 34 :: ',' :: (' ' :: Char.ofNat 34 :: (recActKey ++ (Char.ofNat 34 :: ':' :: ' ' :: Char.ofNat 34 ::
            (escapeStr s2 ++ (Char.ofNat 34 :: '\x7d' :: [])))))))))))) := by
  have L1 : ("\x7b\"severity_rating\": ").toList =
      '\x7b' :: Char.ofNat 34 :: (sevKey ++ [Char.ofNat 34, ':', ' ']) := by decide
  have L2 : (", \"security_analysis\": \"").toList =
      ',' :: ' ' :: Char.ofNat 34 :: (secAnKey ++ [Char.ofNat 34, ':', ' ', Char.ofNat 34]) := by decide
  have L3 : ("\", \"recommended_actions\": \"").toList =
      Char.ofNat 34 :: ',' :: ' ' :: Char.ofNat 34 :: (recActKey ++ [Char.ofNat 34, ':', ' ', Char.ofNat 34]) := by decide
  have L4 : ("\"\x7d").toList = [Char.ofNat 34, '\x7d'] := by decide
  show ("\x7b\"severity_rating\": ").toList ++ ((toString n).toList ++
      ((", \"security_analysis\": \"").toList ++ (escapeStr s1 ++
        (("\", \"recommended_actions\": \"").toList ++ (escapeStr s2 ++
          ("\"\x7d").toList))))) = _
  rw [hds, L1, L2, L3, L4]
  simp only [List.cons_append, List.nil_append, List.append_assoc, List.singleton_append]

/-- The value parser steps into a nonempty object. -/
theorem parseVal_objOpen (f : Nat) (X : List Char) :
    parseVal (f + 1) ('\x7b' :: Char.ofNat 34 :: X) =
      parseMembers f (Char.ofNat 34 :: X) .nil := by
  conv_lhs => unfold parseVal
  rw [skipWs_not _ (by decide)]
  dsimp only
  rw [if_pos rfl]
  rw [skipWs_not _ (by decide)]
  rfl

/-- The member parser consumes a digit-valued member followed by a comma. -/
theorem parseMembers_mem_digit (f : Nat) (k : List Char)
    (hkc : ∀ c ∈ k, c ≠ Char.ofNat 34 ∧ c ≠ Char.ofNat 92)
    (d : Char) (hd : '0' ≤ d ∧ d ≤ '9') (rest : List Char) (acc : JsonO) :
    parseMembers (f + 2)
        (Char.ofNat 34 :: (k ++ (Char.ofNat 34 :: ':' :: ' ' :: d :: ',' :: rest))) acc =
      parseMembers (f + 1) rest (insertKV acc k (Json.int ((d.toNat - 48 : Nat) : Int))) := by
  have hskd : skipWs (' ' :: d :: ',' :: rest) = d :: ',' :: rest := by
    rw [skipWs_ws ' ' (by decide), skipWs_not d (isWsChar_digit d hd)]
  rw [parseMembers_member (f + 1) _ k hkc (Json.int ((d.toNat - 48 : Nat) : Int))
    (d :: ',' :: rest) (',' :: rest) acc (skipWs_not _ (by decide) _)
    (parseVal_digit f d _ rest hd hskd)]
  rw [skipWs_not ',' (by decide)]
  rfl

/-- The member parser consumes a space-led string-valued member followed by a
comma. -/
theorem parseMembers_mem_strSp (f : Nat) (k : List Char)
    (hkc : ∀ c ∈ k, c ≠ Char.ofNat 34 ∧ c ≠ Char.ofNat 92)
    (s rest : List Char) (acc : JsonO) :
    parseMembers (f + 2)
        (' ' :: Char.ofNat 34 :: (k ++ (Char.ofNat 34 :: ':' :: ' ' :: Char.ofNat 34 ::
          (escapeStr s ++ (Char.ofNat 34 :: ',' :: rest))))) acc =
      parseMembers (f + 1) rest (insertKV acc k (Json.str s)) := by
  have hsk1 : skipWs (' ' :: Char.ofNat 34 :: (k ++ (Char.ofNat 34 :: ':' :: ' ' :: Char.ofNat 34 ::
      (escapeStr s ++ (Char.ofNat 34 :: ',' :: rest))))) =
      Char.ofNat 34 :: (k ++ (Char.ofNat 34 :: ':' :: ' ' :: Char.ofNat 34 ::
        (escapeStr s ++ (Char.ofNat 34 :: ',' :: rest)))) := by
    rw [skipWs_ws ' ' (by decide), skipWs_not _ (by decide)]
  have hsk2 : skipWs (' ' :: Char.ofNat 34 :: (escapeStr s ++ (Char.ofNat 34 :: ',' :: rest))) =
      Char.ofNat 34 :: (escapeStr s ++ (Char.ofNat 34 :: ',' :: rest)) := by
    rw [skipWs_ws ' ' (by decide), skipWs_not _ (by decide)]
  rw [parseMembers_member (f + 1) _ k hkc (Json.str s)
    (Char.ofNat 34 :: (escapeStr s ++ (Char.ofNat 34 :: ',' :: rest))) (',' :: rest) acc
    hsk1 (parseVal_str f _ s (',' :: rest) hsk2)]
  rw [skipWs_not ',' (by decide)]
  rfl

/-- The member parser consumes a final space-led string-valued member and the
closing brace. -/
theorem parseMembers_mem_strLastSp (f : Nat) (k : List Char)
    (hkc : ∀ c ∈ k, c ≠ Char.ofNat 34 ∧ c ≠ Char.ofNat 92)
    (s : List Char) (acc : JsonO) :
    parseMembers (f + 2)
        (' ' :: Char.ofNat 34 :: (k ++ (Char.ofNat 34 :: ':' :: ' ' :: Char.ofNat 34 ::
          (escapeStr s ++ (Char.ofNat 34 :: '\x7d' :: []))))) acc =
      some (Json.obj (insertKV acc k (Json.str s)), []) := by
  have hsk1 : skipWs (' ' :: Char.ofNat 34 :: (k ++ (Char.ofNat 34 :: ':' :: ' ' :: Char.ofNat 34 ::
      (escapeStr s ++ (Char.ofNat 34 :: '\x7d' :: []))))) =
      Char.ofNat 34 :: (k ++ (Char.ofNat 34 :: ':' :: ' ' :: Char.ofNat 34 ::
        (escapeStr s ++ (Char.ofNat 34 :: '\x7d' :: [])))) := by
    rw [skipWs_ws ' ' (by decide), skipWs_not _ (by decide)]
  have hsk2 : skipWs (' ' :: Char.ofNat 34 :: (escapeStr s ++ (Char.ofNat 34 :: '\x7d' :: []))) =
      Char.ofNat 34 :: (escapeStr s ++ (Char.ofNat 34 :: '\x7d' :: [])) := by
    rw [skipWs_ws ' ' (by decide), skipWs_not _ (by decide)]
  rw [parseMembers_member (f + 1) _ k hkc (Json.str s)
    (Char.ofNat 34 :: (escapeStr s ++ (Char.ofNat 34 :: '\x7d' :: []))) ('\x7d' :: []) acc
    hsk1 (parseVal_str f _ s ('\x7d' :: []) hsk2)]
  rw [skipWs_not '\x7d' (by decide)]
  rfl

/-- The fuelled parser parses the serialized analysis record completely. -/
theorem parseVal_dump_digit (f : Nat) (d : Char) (n : Int) (s1 s2 : List Char)
    (hd : '0' ≤ d ∧ d ≤ '9') (hds : (toString n).toList = [d])
    (hn : ((d.toNat - 48 : Nat) : Int) = n) :
    parseVal (f + 5) (Analysis.dump ⟨n, s1, s2⟩) =
      some (Analysis.toJson ⟨n, s1, s2⟩, []) := by
  rw [dump_shape n s1 s2 d hds]
  rw [parseVal_objOpen (f + 4)]
  rw [parseMembers_mem_digit (f + 2) sevKey (by decide) d hd]
  rw [hn]
  rw [parseMembers_mem_strSp (f + 1) secAnKey (by decide) s1]
  rw [parseMembers_mem_strLastSp f recActKey (by decide) s2]
  rfl

/-- `json.loads` inverts serialization of an analysis record (single-digit
severity). -/
theorem pyLoads_dump_digit (d : Char) (n : Int) (s1 s2 : List Char)
    (hd : '0' ≤ d ∧ d ≤ '9') (hds : (toString n).toList = [d])
    (hn : ((d.toNat - 48 : Nat) : Int) = n) :
    pyLoads (Analysis.dump ⟨n, s1, s2⟩) = .ok (Analysis.toJson ⟨n, s1, s2⟩) := by
  have hlen : 4 ≤ (Analysis.dump ⟨n, s1, s2⟩).length := by
    show 4 ≤ (("\x7b\"severity_rating\": ").toList ++ _).length
    rw [List.length_append]
    have h21 : (("\x7b\"severity_rating\": ").toList).length = 20 := by decide
    omega
  unfold pyLoads
  rw [show (Analysis.dump ⟨n, s1, s2⟩).length + 1 =
    ((Analysis.dump ⟨n, s1, s2⟩).length - 4) + 5 from by omega]
  rw [parseVal_dump_digit _ d n s1 s2 hd hds hn]
  rfl

/-- `json.loads` inverts serialization of a well-formed analysis record. -/
theorem pyLoads_dump (a : Analysis)
    (h0 : 0 ≤ a.severity_rating) (h5 : a.severity_rating ≤ 5) :
    pyLoads (Analysis.dump a) = .ok (Analysis.toJson a) := by
  obtain ⟨n, s1, s2⟩ := a
  simp only at h0 h5
  interval_cases n
  · exact pyLoads_dump_digit '0' 0 s1 s2 (by decide) (by decide) (by decide)
  · exact pyLoads_dump_digit '1' 1 s1 s2 (by decide) (by decide) (by decide)
  · exact pyLoads_dump_digit '2' 2 s1 s2 (by decide) (by decide) (by decide)
  · exact pyLoads_dump_digit '3' 3 s1 s2 (by decide) (by decide) (by decide)
  · exact pyLoads_dump_digit '4' 4 s1 s2 (by decide) (by decide) (by decide)
  · exact pyLoads_dump_digit '5' 5 s1 s2 (by decide) (by decide) (by decide)

/-- Unwrapping the agent-message shape yields the embedded text. -/
theorem extractUnwrap_mkAgentMsg (t : List Char) :
    extractUnwrap (mkAgentMsg t) = .ok (Json.str t) := rfl

/-- The serialized analysis record opens with a brace. -/
theorem dump_head (a : Analysis) : (Analysis.dump a).head? = some '\x7b' := by
  show (("\x7b\"severity_rating\": ").toList ++ _).head? = some '\x7b'
  rw [show ("\x7b\"severity_rating\": ").toList =
    '\x7b' :: ("\"severity_rating\": ").toList from by decide]
  rw [List.cons_append, List.head?_cons]

/-- The serialized analysis record closes with a brace. -/
theorem dump_getLast (a : Analysis) : (Analysis.dump a).getLast? = some '\x7d' := by
  have h4 : (("\"\x7d").toList : List Char) ≠ [] := by decide
  have h3 : escapeStr a.recommended_actions ++ ("\"\x7d").toList ≠ [] := by
    intro h
    exact h4 (List.append_eq_nil.mp h).2
  have h2 : ("\", \"recommended_actions\": \"").toList ++
      (escapeStr a.recommended_actions ++ ("\"\x7d").toList) ≠ [] := by
    intro h
    exact h3 (List.append_eq_nil.mp h).2
  have h1 : escapeStr a.security_analysis ++ (("\", \"recommended_actions\": \"").toList ++
      (escapeStr a.recommended_actions ++ ("\"\x7d").toList)) ≠ [] := by
    intro h
    exact h2 (List.append_eq_nil.mp h).2
  have h0 : (", \"security_analysis\": \"").toList ++ (escapeStr a.security_analysis ++
      (("\", \"recommended_actions\": \"").toList ++
        (escapeStr a.recommended_actions ++ ("\"\x7d").toList))) ≠ [] := by
    intro h
    exact h1 (List.append_eq_nil.mp h).2
  have hm : (toString a.severity_rating).toList ++
      ((", \"security_analysis\": \"").toList ++ (escapeStr a.security_analysis ++
        (("\", \"recommended_actions\": \"").toList ++
          (escapeStr a.recommended_actions ++ ("\"\x7d").toList)))) ≠ [] := by
    intro h
    exact h0 (List.append_eq_nil.mp h).2
  show (("\x7b\"severity_rating\": ").toList ++ _).getLast? = some '\x7d'
  rw [List.getLast?_append_of_ne_nil _ hm,
    List.getLast?_append_of_ne_nil _ h0,
    List.getLast?_append_of_ne_nil _ h1,
    List.getLast?_append_of_ne_nil _ h2,
    List.getLast?_append_of_ne_nil _ h3,
    List.getLast?_append_of_ne_nil _ h4]
  decide

/-- The validation step passes a well-formed analysis object through. -/
theorem extractValidate_toJson (raw : List Char) (a : Analysis)
    (h0 : 0 ≤ a.severity_rating) (h5 : a.severity_rating ≤ 5) :
    extractValidate raw (Analysis.toJson a) = .ok (Analysis.toJson a) := by
  have h1 : pyIn sevKey (Analysis.toJson a) = .ok true := rfl
  have h2 : pyIn secAnKey (Analysis.toJson a) = .ok true := rfl
  have h3 : pyIn recActKey (Analysis.toJson a) = .ok true := rfl
  have h4 : pyGetItem (Analysis.toJson a) sevKey = .ok (Json.int a.severity_rating) := rfl
  unfold extractValidate
  rw [h1, h2, h3, h4]
  simp only [isIntLike, asIntE, Bool.not_true, Bool.false_eq_true, if_false]
  rw [if_neg (by omega)]

/-- Reading back the JSON object of a record recovers the record. -/
theorem ofJson_toJson (a : Analysis) :
    Analysis.ofJson (Analysis.toJson a) = some a := rfl

/-- The parse stage of the bulk extractor recovers the serialized record and
its parsed object from the fenced agent message. -/
theorem extractParseStage_wrap (a : Analysis)
    (h0 : 0 ≤ a.severity_rating) (h5 : a.severity_rating ≤ 5)
    (hna : noTripleBacktick (Analysis.dump a) = true) :
    extractParseStage (mkAgentMsg (wrapFence (Analysis.dump a))) =
      .ok (Analysis.dump a, Analysis.toJson a) := by
  have hJ : containsSub fenceSep (Analysis.dump a) = false := by
    simpa [noTripleBacktick] using hna
  unfold extractParseStage
  rw [extractUnwrap_mkAgentMsg]
  dsimp only
  rw [extract_defence_of_wrap hJ (dump_head a) (dump_getLast a)]
  dsimp only
  rw [show pyLoadsOf (Json.str (Analysis.dump a)) = pyLoads (Analysis.dump a) from rfl]
  rw [pyLoads_dump a h0 h5]
/-- C8: The claimed unconditional round trip fails: the code's fence handling
splits on every triple-backtick, so a well-formed analysis record whose text
field itself contains three consecutive backticks is serialized, fenced, and
then mangled by both extraction routines: the bulk extractor returns a tagged
error dict rather than the record, and the secops parser returns the empty
dict. -/
theorem extract_roundtrip_counterexample :
    (Analysis.ofJson (extract_json_from_response (mkAgentMsg (wrapFence
        (Analysis.dump ⟨3, ("x``` y").toList, ("z").toList⟩)))) ≠
      some ⟨3, ("x``` y").toList, ("z").toList⟩) ∧
    isTaggedErr (extract_json_from_response (mkAgentMsg (wrapFence
        (Analysis.dump ⟨3, ("x``` y").toList, ("z").toList⟩)))) = true ∧
    Analysis.ofJson (parse_json_response (wrapFence
        (Analysis.dump ⟨3, ("x``` y").toList, ("z").toList⟩))) ≠
      some ⟨3, ("x``` y").toList, ("z").toList⟩ := by decide

/-- C8 (amended): for every well-formed analysis record (severity an integer
in [0,5]) whose serialization contains no run of three backticks, serializing
it, wrapping the document in a JSON-tagged markdown fence, and running
extraction recovers the original object: the bulk extractor returns exactly
the parsed object, the secops parser returns the same object, and reading the
record back off that object gives the original record. -/
theorem extract_roundtrip (a : Analysis)
    (h0 : 0 ≤ a.severity_rating) (h5 : a.severity_rating ≤ 5)
    (hna : noTripleBacktick (Analysis.dump a) = true) :
    extract_json_from_response (mkAgentMsg (wrapFence (Analysis.dump a))) = Analysis.toJson a ∧
    parse_json_response (wrapFence (Analysis.dump a)) = Analysis.toJson a ∧
    Analysis.ofJson (Analysis.toJson a) = some a := by
  have hJ : containsSub fenceSep (Analysis.dump a) = false := by
    simpa [noTripleBacktick] using hna
  refine ⟨?_, ?_, ofJson_toJson a⟩
  · unfold extract_json_from_response
    rw [extractParseStage_wrap a h0 h5 hna]
    dsimp only
    rw [extractValidate_toJson (Analysis.dump a) a h0 h5]
  · unfold parse_json_response parse_json_response_body
    rw [parse_defence_of_wrap hJ (dump_head a) (dump_getLast a)]
    dsimp only
    rw [braceExtract_eq_self (dump_head a) (dump_getLast a)]
    dsimp only
    rw [pyLoads_dump a h0 h5]

/-- Witness for C8: the round trip holds at a concrete record of severity 3. -/
theorem extract_roundtrip_witness :
    (0 ≤ (Analysis.mk 3 (("ok").toList) (("act").toList)).severity_rating ∧
     (Analysis.mk 3 (("ok").toList) (("act").toList)).severity_rating ≤ 5 ∧
     noTripleBacktick (Analysis.dump (Analysis.mk 3 (("ok").toList) (("act").toList))) = true) ∧
    (extract_json_from_response (mkAgentMsg (wrapFence
        (Analysis.dump (Analysis.mk 3 (("ok").toList) (("act").toList))))) =
      Analysis.toJson (Analysis.mk 3 (("ok").toList) (("act").toList)) ∧
     parse_json_response (wrapFence (Analysis.dump (Analysis.mk 3 (("ok").toList) (("act").toList)))) =
      Analysis.toJson (Analysis.mk 3 (("ok").toList) (("act").toList)) ∧
     Analysis.ofJson (Analysis.toJson (Analysis.mk 3 (("ok").toList) (("act").toList))) =
      some (Analysis.mk 3 (("ok").toList) (("act").toList))) :=
  ⟨⟨by decide, by decide, by decide⟩,
    extract_roundtrip (Analysis.mk 3 (("ok").toList) (("act").toList))
      (by decide) (by decide) (by decide)⟩
